import Mathlib

/-! Colour-match game: a model of `script.js`.

The script keeps one global `state` object, writes to a handful of DOM elements (`els`),
draws numbers from `Math.random()` and schedules callbacks with `setTimeout`.

* `Math.random()` is a stream `rs : Nat → Draw` of rationals in `[0,1)` together with a cursor
  (the number of draws consumed so far), threaded through every function that draws. The
  products `Math.random() * n` are taken exactly; the script takes them in binary
  floating point, where a draw just below `k / n` can round up to `k`. The theorems that hold
  for every stream use of these products only what holds either way: the floor lies in
  `0..n-1`, and each of these values is reached by some draw. The sample streams are rational
  and are evaluated exactly.
* `state`, the DOM elements written by the script, the pending `setTimeout` callbacks and the
  cursor form a `World`; every function of the script is a function on `World`.
* The `while` loop of `buildRound` has no bound in the source. Its model takes a `fuel` (the
  number of iterations it may run) and returns `none` when the fuel does not suffice.
* Numbers: `score`, `streak` and `round` only ever hold naturals (they start at `0, 0, 1` and
  are changed by `+= positive`, `= 0`, `= 1`), far below `2^53`; colour channels are integers.
-/

namespace ColorMatch

/-! ## Random draws -/

/-- A value returned by `Math.random()`: a rational `u` with `0 ≤ u < 1`. -/
abbrev Draw : Type := { u : ℚ // 0 ≤ u ∧ u < 1 }

/-! ## Colours -/

/-- The object `{ r, g, b, hex }` built by `makeColor`. -/
structure Color where
  r : Int
  g : Int
  b : Int
  hex : String
deriving DecidableEq

/-- An element of `state.options`: `{ r, g, b, hex, isCorrect }`. -/
structure Tile where
  r : Int
  g : Int
  b : Int
  hex : String
  isCorrect : Bool
deriving DecidableEq

/-- The object spread `{ ...c, isCorrect: flag }`. -/
def Color.withCorrect (c : Color) (flag : Bool) : Tile :=
  { r := c.r, g := c.g, b := c.b, hex := c.hex, isCorrect := flag }

/-- `clamp = (n, min, max) => Math.max(min, Math.min(max, n))`. -/
def clamp (n lo hi : Int) : Int := max lo (min hi n)

/-- `randInt(min, max) = Math.floor(Math.random() * (max - min + 1)) + min`, for the draw `u`,
with the product taken exactly. The script multiplies two doubles, so for a draw just below
`k / (max - min + 1)` its result can be one more than the value here; it stays within
`min..max` for the ranges the script uses. -/
def randInt (u : Draw) (lo hi : Int) : Int :=
  Int.floor (u.val * ((hi - lo + 1 : Int) : ℚ)) + lo

/-- `x.toString(16)` for an integer `x`: lower-case digits, a leading `-` when negative. -/
def toString16 (x : Int) : List Char :=
  if x < 0 then '-' :: Nat.toDigits 16 x.natAbs else Nat.toDigits 16 x.natAbs

/-- `s.padStart(n, c)` for a one-character pad `c`. -/
def padStart (s : List Char) (n : Nat) (c : Char) : List Char :=
  List.replicate (n - s.length) c ++ s

/-- `s.toUpperCase()` on ASCII text. -/
def toUpperCase (s : String) : String := String.mk (s.data.map Char.toUpper)

/-- The inner helper of `rgbToHex`: `to2 = (x) => x.toString(16).padStart(2, "0")`. -/
def to2 (x : Int) : String := String.mk (padStart (toString16 x) 2 '0')

/-- `rgbToHex(r, g, b)`: the template string `#` + `to2(r)` + `to2(g)` + `to2(b)`, upper-cased. -/
def rgbToHex (r g b : Int) : String :=
  toUpperCase ("#" ++ to2 r ++ to2 g ++ to2 b)

/-- `makeColor(r, g, b)`. -/
def makeColor (r g b : Int) : Color :=
  { r := r, g := g, b := b, hex := rgbToHex r g b }

/-- `getSpread(difficulty)`: 90 for `easy`, 45 for `medium`, 22 for anything else. -/
def getSpread (difficulty : String) : Int :=
  if difficulty = "easy" then 90
  else if difficulty = "medium" then 45
  else 22

/-- `pickTarget()`: three draws, at cursor `k`, `k+1`, `k+2`; returns the colour and the new
cursor. -/
def pickTarget (rs : Nat → Draw) (k : Nat) : Color × Nat :=
  let r := randInt (rs k) 40 220
  let g := randInt (rs (k + 1)) 40 220
  let b := randInt (rs (k + 2)) 40 220
  (makeColor r g b, k + 3)

/-- `makeDecoy(target, spread)`: three draws, at cursor `k`, `k+1`, `k+2`. -/
def makeDecoy (rs : Nat → Draw) (k : Nat) (target : Color) (spread : Int) : Color × Nat :=
  let r := clamp (target.r + randInt (rs k) (-spread) spread) 0 255
  let g := clamp (target.g + randInt (rs (k + 1)) (-spread) spread) 0 255
  let b := clamp (target.b + randInt (rs (k + 2)) (-spread) spread) 0 255
  (makeColor r g b, k + 3)

/-! ## Shuffle -/

/-- The destructuring swap `[arr[i], arr[j]] = [arr[j], arr[i]]`. Both indices are within the
array whenever the draws are in `[0,1)`; outside the array the model leaves it unchanged. -/
def swap {α : Type} (arr : List α) (i j : Nat) : List α :=
  match arr.get? i, arr.get? j with
  | some ai, some aj => (arr.set i aj).set j ai
  | _, _ => arr

/-- The body of the `for` loop of `shuffle`, from index `i` down to `1`. -/
def shuffleLoop {α : Type} (rs : Nat → Draw) : Nat → Nat → List α → List α × Nat
  | 0, k, arr => (arr, k)
  | i + 1, k, arr =>
    let j := (Int.floor ((rs k).val * (((i + 1 : Nat) : ℚ) + 1))).toNat
    shuffleLoop rs i (k + 1) (swap arr (i + 1) j)

/-- `shuffle(arr)`: Fisher-Yates, `i` running from `arr.length - 1` down to `1`. -/
def shuffle {α : Type} (rs : Nat → Draw) (k : Nat) (arr : List α) : List α × Nat :=
  shuffleLoop rs (arr.length - 1) k arr

/-! ## The global state, the DOM and the timers -/

/-- The global `state` object. `target` is `null` until the first `buildRound`. -/
structure State where
  difficulty : String
  score : Nat
  streak : Nat
  round : Nat
  locked : Bool
  target : Option Color
  options : List Tile
deriving DecidableEq

/-- A `button.tile` created by `renderBoard`, with the option its click listener closes over. -/
structure Button where
  className : String
  btnType : String
  background : String
  ariaLabel : String
  dataCorrect : String
  disabled : Bool
  opt : Tile
deriving DecidableEq

/-- A difficulty button (`.segBtn`): its `data-difficulty` and its `aria-pressed` attribute. -/
structure DiffBtn where
  dataDifficulty : String
  ariaPressed : String
deriving DecidableEq

/-- What the script reads and writes of the DOM elements in `els`. -/
structure Els where
  targetSwatch : String
  targetHex : String
  board : List Button
  messageText : String
  messageKind : String
  score : String
  streak : String
  round : String
  diffBtns : List DiffBtn
deriving DecidableEq

/-- A callback handed to `setTimeout` by `handlePick` and not yet run.
`unlock gen` closes over the tiles of the board rendered as generation `gen`. -/
inductive Timer where
  | nextRound : Timer
  | unlock (gen : Nat) : Timer
deriving DecidableEq

/-- The delay given to `setTimeout`, in milliseconds. -/
def Timer.delay : Timer → Nat
  | Timer.nextRound => 550
  | Timer.unlock _ => 500

/-- Everything the script can change. `boardGen` counts the calls of `renderBoard`, so that a
pending `unlock` callback can tell whether the buttons it holds are still on the board;
`cursor` is the number of `Math.random()` draws consumed. -/
structure World where
  state : State
  els : Els
  boardGen : Nat
  timers : List Timer
  cursor : Nat
deriving DecidableEq

/-- `setMessage(text, kind)`. -/
def setMessage (text kind : String) (w : World) : World :=
  { w with els := { w.els with messageText := text, messageKind := kind } }

/-- `updateHUD()`. -/
def updateHUD (w : World) : World :=
  { w with els := { w.els with
      score := toString w.state.score
      streak := toString w.state.streak
      round := toString w.state.round } }

/-- `renderTarget()`. It runs only right after `buildRound` has set `state.target`. -/
def renderTarget (w : World) : World :=
  match w.state.target with
  | some t => { w with els := { w.els with targetSwatch := t.hex, targetHex := t.hex } }
  | none => w

/-- The button `renderBoard` creates for option `opt` at index `idx`. -/
def mkButton (idx : Nat) (opt : Tile) : Button :=
  { className := "tile"
    btnType := "button"
    background := opt.hex
    ariaLabel := "Color option " ++ toString (idx + 1)
    dataCorrect := if opt.isCorrect then "1" else "0"
    disabled := false
    opt := opt }

/-- The buttons for the options `opts`, the first of them at index `idx`. -/
def mkButtons : Nat → List Tile → List Button
  | _, [] => []
  | idx, opt :: opts => mkButton idx opt :: mkButtons (idx + 1) opts

/-- `renderBoard()`: empties the board and appends one fresh button per option. -/
def renderBoard (w : World) : World :=
  { w with
    els := { w.els with board := mkButtons 0 w.state.options }
    boardGen := w.boardGen + 1 }

/-- `handlePick(btn, opt)`. The body never reads `btn`. -/
def handlePick (_btn : Button) (opt : Tile) (w : World) : World :=
  if w.state.locked then w
  else
    let isCorrect := opt.isCorrect
    let w1 : World := { w with state := { w.state with locked := true } }
    let gen := w1.boardGen
    let w2 : World :=
      { w1 with els := { w1.els with
          board := w1.els.board.map (fun t => { t with disabled := true }) } }
    let w3 : World :=
      if isCorrect then
        let wa : World :=
          { w2 with state := { w2.state with
              score := w2.state.score + (10 + min w2.state.streak 10) } }
        let wb : World := { wa with state := { wa.state with streak := wa.state.streak + 1 } }
        let wc := setMessage
          ("✅ Correct! +" ++ toString (10 + min (wb.state.streak - 1) 10) ++ " points") "good" wb
        { wc with timers := wc.timers ++ [Timer.nextRound] }
      else
        let wa : World := { w2 with state := { w2.state with streak := 0 } }
        let wb := setMessage ("❌ Wrong — that was " ++ opt.hex ++ ". Try again!") "bad" wa
        { wb with timers := wb.timers ++ [Timer.unlock gen] }
    updateHUD w3

/-- The `while (options.length < 16)` loop of `buildRound`, run for at most `fuel` iterations:
`seen` is the `Set` of hex strings, in insertion order. -/
def decoyLoop (rs : Nat → Draw) (target : Color) (spread : Int) :
    Nat → Nat → List Tile → List String → Option (List Tile × Nat)
  | 0, k, options, _ => if options.length < 16 then none else some (options, k)
  | fuel + 1, k, options, seen =>
    if options.length < 16 then
      let decoy := makeDecoy rs k target spread
      if decoy.1.hex ∈ seen then decoyLoop rs target spread fuel decoy.2 options seen
      else
        decoyLoop rs target spread fuel decoy.2
          (options ++ [decoy.1.withCorrect false]) (seen ++ [decoy.1.hex])
    else some (options, k)

/-- `buildRound()`. -/
def buildRound (rs : Nat → Draw) (fuel : Nat) (w : World) : Option World :=
  let spread := getSpread w.state.difficulty
  let target := pickTarget rs w.cursor
  match decoyLoop rs target.1 spread fuel target.2 [target.1.withCorrect true] [target.1.hex] with
  | none => none
  | some (options, k) =>
    let shuffled := shuffle rs k options
    some { w with
      state := { w.state with target := some target.1, options := shuffled.1, locked := false }
      cursor := shuffled.2 }

/-- `newRound()`. -/
def newRound (rs : Nat → Draw) (fuel : Nat) (w : World) : Option World :=
  (buildRound rs fuel w).map fun w1 =>
    setMessage "Pick the exact match." "" (updateHUD (renderBoard (renderTarget w1)))

/-- `resetGame()`. -/
def resetGame (rs : Nat → Draw) (fuel : Nat) (w : World) : Option World :=
  newRound rs fuel { w with state := { w.state with score := 0, streak := 0, round := 1 } }

/-- `setDifficulty(diff)`. -/
def setDifficulty (rs : Nat → Draw) (fuel : Nat) (diff : String) (w : World) : Option World :=
  let w1 : World := { w with state := { w.state with difficulty := diff } }
  let w2 : World :=
    { w1 with els := { w1.els with
        diffBtns := w1.els.diffBtns.map fun b =>
          { b with ariaPressed := if b.dataDifficulty = diff then "true" else "false" } } }
  newRound rs fuel (setMessage ("Difficulty: " ++ toUpperCase diff) "" w2)

/-- The click listener of `newRoundBtn`. -/
def newRoundClick (rs : Nat → Draw) (fuel : Nat) (w : World) : Option World :=
  newRound rs fuel { w with state := { w.state with round := w.state.round + 1 } }

/-- Running a `setTimeout` callback. -/
def runTimer (rs : Nat → Draw) (fuel : Nat) : Timer → World → Option World
  | Timer.nextRound, w =>
    newRound rs fuel { w with state := { w.state with round := w.state.round + 1 } }
  | Timer.unlock gen, w =>
    let w1 : World := { w with state := { w.state with locked := false } }
    some (if gen = w1.boardGen then
        { w1 with els := { w1.els with
            board := w1.els.board.map (fun t => { t with disabled := false }) } }
      else w1)

/-- What can happen to the page after the script has loaded. -/
inductive Event where
  | pick (i : Nat) : Event
  | fire (i : Nat) : Event
  | newRoundCmd : Event
  | reset : Event
  | setDiff (d : String) : Event
deriving DecidableEq

/-- One event. `pick i` is a click on the `i`-th tile of the board (a disabled button gets no
click); `fire i` runs the `i`-th pending callback and removes it from the pending ones. An
event that cannot happen, or a round whose construction needs more than `fuel` iterations,
gives `none`. -/
def step (rs : Nat → Draw) (fuel : Nat) : Event → World → Option World
  | Event.pick i, w =>
    match w.els.board.get? i with
    | some btn => if btn.disabled then none else some (handlePick btn btn.opt w)
    | none => none
  | Event.fire i, w =>
    match w.timers.get? i with
    | some t => runTimer rs fuel t { w with timers := w.timers.eraseIdx i }
    | none => none
  | Event.newRoundCmd, w => newRoundClick rs fuel w
  | Event.reset, w => resetGame rs fuel w
  | Event.setDiff d, w => setDifficulty rs fuel d w

/-- The global `state` as the script declares it. -/
def initialState : State :=
  { difficulty := "easy", score := 0, streak := 0, round := 1, locked := false,
    target := none, options := [] }

/-- The world when the script starts, for a page whose elements hold `els`. -/
def initialWorld (els : Els) : World :=
  { state := initialState, els := els, boardGen := 0, timers := [], cursor := 0 }

/-- The worlds the page can be in: the one left by the `newRound()` call that ends the
script, and every world an event leads to from there. -/
inductive Reachable (rs : Nat → Draw) (els : Els) : World → Prop
  | start (fuel : Nat) (w : World) (h : newRound rs fuel (initialWorld els) = some w) :
      Reachable rs els w
  | next (fuel : Nat) (e : Event) (w w' : World) (hw : Reachable rs els w)
      (h : step rs fuel e w = some w') : Reachable rs els w'

/-! ## Reading a hex string back -/

/-- The value of an upper-case hexadecimal digit. -/
def hexDigitVal (c : Char) : Option Nat :=
  if '0' ≤ c ∧ c ≤ '9' then some (c.toNat - '0'.toNat)
  else if 'A' ≤ c ∧ c ≤ 'F' then some (c.toNat - 'A'.toNat + 10)
  else none

/-- The base-16 value of a pair of upper-case hexadecimal digits. -/
def parsePair (hi lo : Char) : Option Int :=
  match hexDigitVal hi, hexDigitVal lo with
  | some h, some l => some ((16 * h + l : Nat) : Int)
  | _, _ => none

/-- Reading `#RRGGBB` back into its three channels. -/
def parseHex (s : String) : Option (Int × Int × Int) :=
  match s.data with
  | ['#', r1, r2, g1, g2, b1, b2] =>
    match parsePair r1 r2, parsePair g1 g2, parsePair b1 b2 with
    | some r, some g, some b => some (r, g, b)
    | _, _, _ => none
  | _ => none

/-- The characters `0`-`9` and `A`-`F`. -/
def isUpperHexDigit (c : Char) : Bool :=
  ('0' ≤ c ∧ c ≤ '9') ∨ ('A' ≤ c ∧ c ≤ 'F')

/-! ## Sample inputs -/

/-- A stream of draws: `((37 n + 11) mod 181) / 181`. -/
def sampleDraws : Nat → Draw := fun n =>
  ⟨(((37 * n + 11) % 181 : Nat) : ℚ) / 181, by
    constructor
    · positivity
    · rw [div_lt_one (by norm_num)]
      have h : (37 * n + 11) % 181 < 181 := Nat.mod_lt _ (by norm_num)
      exact_mod_cast h⟩

/-- The stream on which every draw is `1/2`. -/
def halfDraws : Nat → Draw := fun _ => ⟨1 / 2, by norm_num⟩

/-- A page whose elements are all empty. -/
def emptyEls : Els :=
  { targetSwatch := "", targetHex := "", board := [], messageText := "", messageKind := "",
    score := "", streak := "", round := "", diffBtns := [] }

/-! ## Hex strings, channel by channel -/

/-- The two upper-cased characters `rgbToHex` writes for one channel. -/
def channelChars (x : Int) : List Char := (to2 x).data.map Char.toUpper

/-- A channel is written as two upper-case hex digits whose base-16 value is `n`. -/
def channelOk (l : List Char) (n : Nat) : Bool :=
  match l with
  | [hi, lo] => isUpperHexDigit hi && isUpperHexDigit lo && (parsePair hi lo == some (n : Int))
  | _ => false

/-! ## More sample inputs -/

/-- The world the script starts from, with the difficulty set to `d`. -/
def sampleStart (d : String) : World :=
  { initialWorld emptyEls with state := { initialState with difficulty := d } }

/-- The world after the `newRound()` call that ends the script, on the draws `sampleDraws`. -/
def sampleWorld : World :=
  (newRound sampleDraws 15 (initialWorld emptyEls)).getD (initialWorld emptyEls)

/-- The tile of `sampleWorld` that matches the target. -/
def sampleCorrectTile : Tile := (makeColor 51 88 125).withCorrect true

/-- A tile of `sampleWorld` that does not match the target. -/
def sampleWrongTile : Tile := (makeColor 37 111 185).withCorrect false

/-- The world after a click on the matching tile of `sampleWorld`. -/
def sampleScoredWorld : World :=
  handlePick (mkButton 9 sampleCorrectTile) sampleCorrectTile sampleWorld

/-- The world `sampleWorld` with three wins behind it: streak 3, score 30, round 4. -/
def sampleStreakWorld : World :=
  { sampleWorld with state := { sampleWorld.state with score := 30, streak := 3, round := 4 } }

/-- The draws of `sampleDraws` for the first round (63 draws), and `1/2` ever after. -/
def stuckDraws : Nat → Draw := fun n => if n < 63 then sampleDraws n else halfDraws n

/-! ## Definitions for the timer, message, board and shuffle properties -/

/-- The world reached, on `stuckDraws`, by the `newRound()` call that ends the script. -/
def stuckWorld : World :=
  (newRound stuckDraws 15 (initialWorld emptyEls)).getD (initialWorld emptyEls)

/-- The text of the wrong-pick message of `handlePick` when the hex string in it is `hex`. -/
def wrongMessage (hex : String) : String :=
  "❌ Wrong — that was " ++ hex ++ ". Try again!"

/-- The worlds reached from the `newRound()` that ends the script by any sequence of clicks
on tiles, timer callbacks, new-round clicks, resets and difficulty changes in which no
new-round click, reset or difficulty change happens while a timer is pending. -/
inductive ReachableIdleCommands (rs : Nat → Draw) (els : Els) : World → Prop
  | start (fuel : Nat) (w : World) (h : newRound rs fuel (initialWorld els) = some w) :
      ReachableIdleCommands rs els w
  | pick (fuel i : Nat) (w w' : World) (hw : ReachableIdleCommands rs els w)
      (h : step rs fuel (Event.pick i) w = some w') : ReachableIdleCommands rs els w'
  | fire (fuel i : Nat) (w w' : World) (hw : ReachableIdleCommands rs els w)
      (h : step rs fuel (Event.fire i) w = some w') : ReachableIdleCommands rs els w'
  | command (fuel : Nat) (cmd : Event) (w w' : World) (hw : ReachableIdleCommands rs els w)
      (hcmd : cmd = Event.newRoundCmd ∨ cmd = Event.reset ∨ ∃ d, cmd = Event.setDiff d)
      (hidle : w.timers = []) (h : step rs fuel cmd w = some w') :
      ReachableIdleCommands rs els w'

/-- What a rendered button shows apart from its `data-correct` attribute: class, type,
background colour, label and whether it is disabled. -/
def Button.visible (b : Button) : String × String × String × String × Bool :=
  (b.className, b.btnType, b.background, b.ariaLabel, b.disabled)

/-- The world after `resetGame` on `sampleScoredWorld`, whose 550 ms timer is pending. -/
def sampleResetWorld : World :=
  (step sampleDraws 15 Event.reset sampleScoredWorld).getD sampleScoredWorld

/-- The world after the pending 550 ms timer of `sampleResetWorld` has fired. -/
def sampleStaleWorld : World :=
  (step sampleDraws 15 (Event.fire 0) sampleResetWorld).getD sampleResetWorld

/-- The world after a new-round click on `sampleScoredWorld`, whose 550 ms timer is
pending. -/
def sampleSkippedWorld : World :=
  (step sampleDraws 15 Event.newRoundCmd sampleScoredWorld).getD sampleScoredWorld

/-- The world after a click on the matching tile (the fifth) of `sampleSkippedWorld`. -/
def sampleTwiceWorld : World :=
  (step sampleDraws 15 (Event.pick 4) sampleSkippedWorld).getD sampleSkippedWorld

/-- The world after a difficulty change to `hard` on `sampleWorld`, where no timer is
pending. -/
def sampleHardWorld : World :=
  (step sampleDraws 15 (Event.setDiff "hard") sampleWorld).getD sampleWorld

/-- The world after a click on the first tile of `sampleHardWorld`. -/
def samplePendingWorld : World :=
  (step sampleDraws 0 (Event.pick 0) sampleHardWorld).getD sampleHardWorld

/-- The world after a click on a decoy of `sampleWorld`, whose 500 ms timer is pending. -/
def sampleMissedWorld : World :=
  handlePick (mkButton 0 sampleWrongTile) sampleWrongTile sampleWorld

/-- The world `sampleWorld` with every `isCorrect` flag cleared: same colours, same order. -/
def sampleMaskedWorld : World :=
  { sampleWorld with state := { sampleWorld.state with
      options := sampleWorld.state.options.map (fun o => { o with isCorrect := false }) } }

/-- A draw for which `shuffle`, at position `i`, picks the index `j`: `j / (i + 1)` for
`j ≤ i` (and `0` otherwise). -/
def indexDraw (i j : Nat) : Draw :=
  if h : j ≤ i then
    ⟨(j : ℚ) / ((i : ℚ) + 1), by
      have hpos : (0 : ℚ) < (i : ℚ) + 1 := by positivity
      constructor
      · positivity
      · rw [div_lt_one hpos]
        have : (j : ℚ) ≤ (i : ℚ) := by exact_mod_cast h
        linarith⟩
  else ⟨0, by norm_num⟩

/-- Draws for `shuffle` on an array of length `len`, from cursor `k`: position `hi` is
swapped with `lo`, every other position with itself. -/
def placeDraws (len k hi lo : Nat) : Nat → Draw := fun n =>
  if len - 1 - (n - k) = hi then indexDraw hi lo
  else indexDraw (len - 1 - (n - k)) (len - 1 - (n - k))

/-- The draws `sampleDraws` for the target and the decoys of the first round (48 draws),
then draws that make `shuffle` move the first tile to position `p`. -/
def mixDraws (p : Nat) : Nat → Draw := fun n =>
  if n < 48 then sampleDraws n else placeDraws 16 48 p 0 n

/-! ## `rgbToHex` and `makeDecoy` -/

/-- Every channel value below 256 is written as two upper-case hex digits of that value. -/
theorem channelOk_all : ∀ n : Nat, n < 256 → channelOk (channelChars (n : Int)) n = true := by
  decide!

/-- The same for an integer channel between 0 and 255. -/
theorem channelChars_spec (x : Int) (h0 : 0 ≤ x) (h1 : x ≤ 255) :
    ∃ hi lo, channelChars x = [hi, lo] ∧ isUpperHexDigit hi = true ∧
      isUpperHexDigit lo = true ∧ parsePair hi lo = some x := by
  obtain ⟨n, rfl⟩ := Int.eq_ofNat_of_zero_le h0
  have hn : n < 256 := by omega
  have h := channelOk_all n hn
  unfold channelOk at h
  split at h
  · rename_i hi lo heq
    simp only [Bool.and_eq_true, beq_iff_eq] at h
    exact ⟨hi, lo, heq, h.1.1, h.1.2, h.2⟩
  · exact absurd h (by simp)

/-- The characters of `rgbToHex r g b`. -/
theorem rgbToHex_data (r g b : Int) :
    (rgbToHex r g b).data = '#' :: (channelChars r ++ channelChars g ++ channelChars b) := by
  simp [rgbToHex, toUpperCase, channelChars, String.data_append]
  

/-- Reading back what `rgbToHex` wrote gives the channels. -/
theorem parseHex_rgbToHex (r g b : Int) (hr : 0 ≤ r ∧ r ≤ 255) (hg : 0 ≤ g ∧ g ≤ 255)
    (hb : 0 ≤ b ∧ b ≤ 255) : parseHex (rgbToHex r g b) = some (r, g, b) := by
  obtain ⟨r1, r2, hR, -, -, pr⟩ := channelChars_spec r hr.1 hr.2
  obtain ⟨g1, g2, hG, -, -, pg⟩ := channelChars_spec g hg.1 hg.2
  obtain ⟨b1, b2, hB, -, -, pb⟩ := channelChars_spec b hb.1 hb.2
  simp [parseHex, rgbToHex_data, hR, hG, hB, pr, pg, pb]

/-- C9: for channels in `[0,255]`, `rgbToHex` gives `#` followed by six characters from
`0-9A-F` (seven characters in all), reading the three pairs back in base 16 gives the channels,
and two colours made by `makeColor` have the same hex string exactly when their channels
agree. -/
theorem rgbToHex_roundtrip (r g b r' g' b' : Int)
    (hr : 0 ≤ r ∧ r ≤ 255) (hg : 0 ≤ g ∧ g ≤ 255) (hb : 0 ≤ b ∧ b ≤ 255)
    (hr' : 0 ≤ r' ∧ r' ≤ 255) (hg' : 0 ≤ g' ∧ g' ≤ 255) (hb' : 0 ≤ b' ∧ b' ≤ 255) :
    (rgbToHex r g b).length = 7 ∧
    (∃ cs : List Char, (rgbToHex r g b).data = '#' :: cs ∧ cs.length = 6 ∧
      ∀ c ∈ cs, isUpperHexDigit c = true) ∧
    parseHex (rgbToHex r g b) = some (r, g, b) ∧
    ((makeColor r g b).hex = (makeColor r' g' b').hex ↔
      ((makeColor r g b).r = (makeColor r' g' b').r ∧
       (makeColor r g b).g = (makeColor r' g' b').g ∧
       (makeColor r g b).b = (makeColor r' g' b').b)) := by
  obtain ⟨r1, r2, hR, ur1, ur2, -⟩ := channelChars_spec r hr.1 hr.2
  obtain ⟨g1, g2, hG, ug1, ug2, -⟩ := channelChars_spec g hg.1 hg.2
  obtain ⟨b1, b2, hB, ub1, ub2, -⟩ := channelChars_spec b hb.1 hb.2
  have hdata : (rgbToHex r g b).data = ['#', r1, r2, g1, g2, b1, b2] := by
    simp [rgbToHex_data, hR, hG, hB]
  refine ⟨?_, ⟨[r1, r2, g1, g2, b1, b2], hdata, rfl, ?_⟩, parseHex_rgbToHex r g b hr hg hb, ?_⟩
  · show (rgbToHex r g b).data.length = 7
    rw [hdata]; rfl
  · intro c hc
    simp only [List.mem_cons, List.mem_singleton, List.not_mem_nil, or_false] at hc
    rcases hc with h | h | h | h | h | h <;> subst h <;> assumption
  · constructor
    · intro h
      have h1 := parseHex_rgbToHex r g b hr hg hb
      have h2 := parseHex_rgbToHex r' g' b' hr' hg' hb'
      simp only [makeColor] at h
      rw [h, h2] at h1
      simp only [Option.some.injEq, Prod.mk.injEq] at h1
      exact ⟨h1.1.symm, h1.2.1.symm, h1.2.2.symm⟩
    · rintro ⟨h1, h2, h3⟩
      simp only [makeColor] at h1 h2 h3 ⊢
      rw [h1, h2, h3]

/-- C9 at pure red and pure blue. -/
theorem rgbToHex_roundtrip_witness :
    (rgbToHex 255 0 10).length = 7 ∧
    (∃ cs : List Char, (rgbToHex 255 0 10).data = '#' :: cs ∧ cs.length = 6 ∧
      ∀ c ∈ cs, isUpperHexDigit c = true) ∧
    parseHex (rgbToHex 255 0 10) = some (255, 0, 10) ∧
    ((makeColor 255 0 10).hex = (makeColor 0 0 255).hex ↔
      ((makeColor 255 0 10).r = (makeColor 0 0 255).r ∧
       (makeColor 255 0 10).g = (makeColor 0 0 255).g ∧
       (makeColor 255 0 10).b = (makeColor 0 0 255).b)) :=
  rgbToHex_roundtrip 255 0 10 0 0 255 (by decide) (by decide) (by decide) (by decide)
    (by decide) (by decide)

/-- Bounds of `clamp` between `0` and `255`. -/
theorem clamp_bounds (n : Int) : 0 ≤ clamp n 0 255 ∧ clamp n 0 255 ≤ 255 := by
  unfold clamp
  constructor
  · exact le_max_left _ _
  · exact max_le (by norm_num) (min_le_left _ _)

/-- C10: whatever the target, the spread and the draws, every channel of the colour returned
by `makeDecoy` is an integer between `0` and `255`; with target `r = 220`, spread `90` and a
draw that gives the offset `+90`, the `r` channel is `255`. -/
theorem makeDecoy_channels_in_range (rs : Nat → Draw) (k : Nat) (target : Color) (spread : Int) :
    (0 ≤ (makeDecoy rs k target spread).1.r ∧ (makeDecoy rs k target spread).1.r ≤ 255) ∧
    (0 ≤ (makeDecoy rs k target spread).1.g ∧ (makeDecoy rs k target spread).1.g ≤ 255) ∧
    (0 ≤ (makeDecoy rs k target spread).1.b ∧ (makeDecoy rs k target spread).1.b ≤ 255) ∧
    (randInt ⟨180 / 181, by norm_num⟩ (-90) 90 = 90 ∧
      (makeDecoy (fun _ => ⟨180 / 181, by norm_num⟩) 0 (makeColor 220 100 100) 90).1.r = 255) := by
  refine ⟨clamp_bounds _, clamp_bounds _, clamp_bounds _, ?_, ?_⟩
  · decide!
  · decide!

/-! ## `handlePick` -/

/-- Whatever the state, `state.locked` is true after `handlePick`. -/
theorem handlePick_locked (btn : Button) (opt : Tile) (w : World) :
    (handlePick btn opt w).state.locked = true := by
  unfold handlePick
  by_cases h : w.state.locked = true
  · simp [h]
  · cases hc : opt.isCorrect <;> simp [h, hc, updateHUD, setMessage]

/-- C3: in an unlocked state a pick of a tile with `isCorrect = true` adds
`10 + min(streak, 10)` to the score, computed from the streak before the pick, adds one to the
streak and locks; the amount added lies between 10 and 20, is 13 for streak 3 and 20 for
streak 11. -/
theorem handlePick_correct (btn : Button) (opt : Tile) (w : World)
    (hl : w.state.locked = false) (hc : opt.isCorrect = true) :
    (handlePick btn opt w).state.score = w.state.score + 10 + min w.state.streak 10 ∧
    (handlePick btn opt w).state.streak = w.state.streak + 1 ∧
    (handlePick btn opt w).state.locked = true ∧
    w.state.score + 10 ≤ (handlePick btn opt w).state.score ∧
    (handlePick btn opt w).state.score ≤ w.state.score + 20 ∧
    (w.state.streak = 3 → (handlePick btn opt w).state.score = w.state.score + 13) ∧
    (w.state.streak = 11 → (handlePick btn opt w).state.score = w.state.score + 20) := by
  have hs : (handlePick btn opt w).state.score = w.state.score + 10 + min w.state.streak 10 := by
    simp [handlePick, hl, hc, updateHUD, setMessage, Nat.add_assoc]
  refine ⟨hs, ?_, handlePick_locked btn opt w, ?_, ?_, ?_, ?_⟩
  · simp [handlePick, hl, hc, updateHUD, setMessage]
  · omega
  · omega
  · intro h3; omega
  · intro h11; omega

/-- C3 on a world with streak 3 and score 30: the pick adds 13. -/
theorem handlePick_correct_witness :
    sampleStreakWorld.state.locked = false ∧ sampleCorrectTile.isCorrect = true ∧
    sampleStreakWorld.state.streak = 3 ∧
    ((handlePick (mkButton 9 sampleCorrectTile) sampleCorrectTile sampleStreakWorld).state.score
        = sampleStreakWorld.state.score + 10 + min sampleStreakWorld.state.streak 10 ∧
      (handlePick (mkButton 9 sampleCorrectTile) sampleCorrectTile sampleStreakWorld).state.streak
        = sampleStreakWorld.state.streak + 1 ∧
      (handlePick (mkButton 9 sampleCorrectTile) sampleCorrectTile sampleStreakWorld).state.locked
        = true ∧
      sampleStreakWorld.state.score + 10 ≤
        (handlePick (mkButton 9 sampleCorrectTile) sampleCorrectTile
          sampleStreakWorld).state.score ∧
      (handlePick (mkButton 9 sampleCorrectTile) sampleCorrectTile sampleStreakWorld).state.score
        ≤ sampleStreakWorld.state.score + 20 ∧
      (sampleStreakWorld.state.streak = 3 →
        (handlePick (mkButton 9 sampleCorrectTile) sampleCorrectTile
          sampleStreakWorld).state.score = sampleStreakWorld.state.score + 13) ∧
      (sampleStreakWorld.state.streak = 11 →
        (handlePick (mkButton 9 sampleCorrectTile) sampleCorrectTile
          sampleStreakWorld).state.score = sampleStreakWorld.state.score + 20)) :=
  ⟨by decide!, rfl, rfl,
    handlePick_correct (mkButton 9 sampleCorrectTile) sampleCorrectTile sampleStreakWorld
      (by decide!) rfl⟩

/-- C4: in a locked state `handlePick` changes nothing at all: the state, the message, the
board and the pending timers are the same. -/
theorem handlePick_locked_noop (btn : Button) (opt : Tile) (w : World)
    (hl : w.state.locked = true) : handlePick btn opt w = w := by
  simp [handlePick, hl]

/-- C4 on the locked world left by a correct pick. -/
theorem handlePick_locked_noop_witness :
    sampleScoredWorld.state.locked = true ∧
    handlePick (mkButton 0 sampleWrongTile) sampleWrongTile sampleScoredWorld
      = sampleScoredWorld :=
  ⟨by decide!,
    handlePick_locked_noop (mkButton 0 sampleWrongTile) sampleWrongTile sampleScoredWorld
      (by decide!)⟩

/-- C5: from an unlocked state, a second `handlePick` right after a first one changes
nothing: the world after both picks is the world after the first. -/
theorem handlePick_twice (b1 b2 : Button) (t1 t2 : Tile) (w : World)
    (hl : w.state.locked = false) :
    handlePick b2 t2 (handlePick b1 t1 w) = handlePick b1 t1 w ∧
    (handlePick b2 t2 (handlePick b1 t1 w)).state.score ≤ w.state.score + 20 := by
  have h1 : handlePick b2 t2 (handlePick b1 t1 w) = handlePick b1 t1 w := by
    have hlk := handlePick_locked b1 t1 w
    generalize handlePick b1 t1 w = w1 at hlk
    simp [handlePick, hlk]
  refine ⟨h1, ?_⟩
  rw [h1]
  cases hc : t1.isCorrect
  · simp [handlePick, hl, hc, updateHUD, setMessage]
  · simp [handlePick, hl, hc, updateHUD, setMessage]
    omega

/-- C5 on the sample round: the matching tile, then a decoy. -/
theorem handlePick_twice_witness :
    sampleWorld.state.locked = false ∧
    (handlePick (mkButton 0 sampleWrongTile) sampleWrongTile
        (handlePick (mkButton 9 sampleCorrectTile) sampleCorrectTile sampleWorld)
      = handlePick (mkButton 9 sampleCorrectTile) sampleCorrectTile sampleWorld ∧
     (handlePick (mkButton 0 sampleWrongTile) sampleWrongTile
        (handlePick (mkButton 9 sampleCorrectTile) sampleCorrectTile sampleWorld)).state.score
      ≤ sampleWorld.state.score + 20) :=
  ⟨by decide!,
    handlePick_twice (mkButton 9 sampleCorrectTile) (mkButton 0 sampleWrongTile)
      sampleCorrectTile sampleWrongTile sampleWorld (by decide!)⟩

/-- C6: in an unlocked state a pick of a tile with `isCorrect = false` sets the streak to 0
and locks, and leaves score, round, difficulty, target and options as they were. -/
theorem handlePick_incorrect (btn : Button) (opt : Tile) (w : World)
    (hl : w.state.locked = false) (hc : opt.isCorrect = false) :
    (handlePick btn opt w).state.streak = 0 ∧
    (handlePick btn opt w).state.locked = true ∧
    (handlePick btn opt w).state.score = w.state.score ∧
    (handlePick btn opt w).state.round = w.state.round ∧
    (handlePick btn opt w).state.difficulty = w.state.difficulty ∧
    (handlePick btn opt w).state.target = w.state.target ∧
    (handlePick btn opt w).state.options = w.state.options := by
  simp [handlePick, hl, hc, updateHUD, setMessage]

/-- C6 on a world with streak 3: a decoy is picked. -/
theorem handlePick_incorrect_witness :
    sampleStreakWorld.state.locked = false ∧ sampleWrongTile.isCorrect = false ∧
    sampleStreakWorld.state.streak = 3 ∧
    ((handlePick (mkButton 0 sampleWrongTile) sampleWrongTile sampleStreakWorld).state.streak = 0 ∧
     (handlePick (mkButton 0 sampleWrongTile) sampleWrongTile sampleStreakWorld).state.locked
        = true ∧
     (handlePick (mkButton 0 sampleWrongTile) sampleWrongTile sampleStreakWorld).state.score
        = sampleStreakWorld.state.score ∧
     (handlePick (mkButton 0 sampleWrongTile) sampleWrongTile sampleStreakWorld).state.round
        = sampleStreakWorld.state.round ∧
     (handlePick (mkButton 0 sampleWrongTile) sampleWrongTile sampleStreakWorld).state.difficulty
        = sampleStreakWorld.state.difficulty ∧
     (handlePick (mkButton 0 sampleWrongTile) sampleWrongTile sampleStreakWorld).state.target
        = sampleStreakWorld.state.target ∧
     (handlePick (mkButton 0 sampleWrongTile) sampleWrongTile sampleStreakWorld).state.options
        = sampleStreakWorld.state.options) :=
  ⟨by decide!, rfl, rfl,
    handlePick_incorrect (mkButton 0 sampleWrongTile) sampleWrongTile sampleStreakWorld
      (by decide!) rfl⟩

/-- C7: in an unlocked state an incorrect pick schedules one callback, with delay 500; when
that callback runs next, the state is the one before the pick with the streak set to 0:
unlocked, same target, same options in the same order, same score, round and difficulty; the
message is the one the pick wrote, and the pending timers are those from before the pick. -/
theorem incorrect_pick_then_timer (rs : Nat → Draw) (fuel : Nat) (btn : Button) (opt : Tile)
    (w : World) (hl : w.state.locked = false) (hc : opt.isCorrect = false) :
    (handlePick btn opt w).timers = w.timers ++ [Timer.unlock w.boardGen] ∧
    (Timer.unlock w.boardGen).delay = 500 ∧
    ∃ w', step rs fuel (Event.fire w.timers.length) (handlePick btn opt w) = some w' ∧
      w'.state.locked = false ∧
      w'.state.target = w.state.target ∧
      w'.state.options = w.state.options ∧
      w'.state.score = w.state.score ∧
      w'.state.round = w.state.round ∧
      w'.state.difficulty = w.state.difficulty ∧
      w'.state.streak = 0 ∧
      w'.state = { w.state with streak := 0 } ∧
      w'.els.messageText = "❌ Wrong — that was " ++ opt.hex ++ ". Try again!" ∧
      w'.timers = w.timers ∧
      w'.boardGen = w.boardGen ∧
      w'.cursor = w.cursor := by
  have ht : (handlePick btn opt w).timers = w.timers ++ [Timer.unlock w.boardGen] := by
    simp [handlePick, hl, hc, updateHUD, setMessage]
  refine ⟨ht, rfl, ?_⟩
  have hget : (handlePick btn opt w).timers.get? w.timers.length
      = some (Timer.unlock w.boardGen) := by
    rw [ht]; simp
  have hbg : (handlePick btn opt w).boardGen = w.boardGen := by
    simp [handlePick, hl, hc, updateHUD, setMessage]
  simp only [step, hget, runTimer, hbg, if_true]
  refine ⟨_, rfl, ?_⟩
  obtain ⟨⟨d, sc, sk, rd, lk, tg, os⟩, els, bg, tm, cur⟩ := w
  simp only at hl
  subst hl
  simp [handlePick, hc, updateHUD, setMessage, List.eraseIdx_append_of_length_le]

/-- C7 on a world with streak 3: a decoy is picked and the callback runs. -/
theorem incorrect_pick_then_timer_witness :
    sampleStreakWorld.state.locked = false ∧ sampleWrongTile.isCorrect = false ∧
    ((handlePick (mkButton 0 sampleWrongTile) sampleWrongTile sampleStreakWorld).timers
        = sampleStreakWorld.timers ++ [Timer.unlock sampleStreakWorld.boardGen] ∧
     (Timer.unlock sampleStreakWorld.boardGen).delay = 500 ∧
     ∃ w', step sampleDraws 0 (Event.fire sampleStreakWorld.timers.length)
          (handlePick (mkButton 0 sampleWrongTile) sampleWrongTile sampleStreakWorld) = some w' ∧
      w'.state.locked = false ∧
      w'.state.target = sampleStreakWorld.state.target ∧
      w'.state.options = sampleStreakWorld.state.options ∧
      w'.state.score = sampleStreakWorld.state.score ∧
      w'.state.round = sampleStreakWorld.state.round ∧
      w'.state.difficulty = sampleStreakWorld.state.difficulty ∧
      w'.state.streak = 0 ∧
      w'.state = { sampleStreakWorld.state with streak := 0 } ∧
      w'.els.messageText = "❌ Wrong — that was " ++ sampleWrongTile.hex ++ ". Try again!" ∧
      w'.timers = sampleStreakWorld.timers ∧
      w'.boardGen = sampleStreakWorld.boardGen ∧
      w'.cursor = sampleStreakWorld.cursor) :=
  ⟨by decide!, rfl,
    incorrect_pick_then_timer sampleDraws 0 (mkButton 0 sampleWrongTile) sampleWrongTile
      sampleStreakWorld (by decide!) rfl⟩

/-! ## `shuffle` and `buildRound` -/

/-- The index `shuffle` draws for position `i` lies in `0..i`, so its swap is within the
array. -/
theorem shuffle_index_le (u : Draw) (i : Nat) :
    0 ≤ Int.floor (u.val * ((i : ℚ) + 1)) ∧ (Int.floor (u.val * ((i : ℚ) + 1))).toNat ≤ i := by
  have hpos : (0 : ℚ) < (i : ℚ) + 1 := by positivity
  have h0 : 0 ≤ Int.floor (u.val * ((i : ℚ) + 1)) :=
    Int.floor_nonneg.mpr (mul_nonneg u.property.1 hpos.le)
  have h1 : Int.floor (u.val * ((i : ℚ) + 1)) < (i : Int) + 1 := by
    rw [Int.floor_lt]
    push_cast
    calc u.val * ((i : ℚ) + 1) < 1 * ((i : ℚ) + 1) :=
          mul_lt_mul_of_pos_right u.property.2 hpos
      _ = (i : ℚ) + 1 := one_mul _
  refine ⟨h0, ?_⟩
  omega

/-- Overwriting position `i` removes one occurrence of the old element and adds one of the
new. -/
theorem count_set_add {α : Type} [DecidableEq α] (x a : α) :
    ∀ (l : List α) (i : Nat) (ai : α), l.get? i = some ai →
      (l.set i a).count x + (if ai = x then 1 else 0) = l.count x + (if a = x then 1 else 0)
  | [], i, ai, h => by simp at h
  | b :: l, 0, ai, h => by
    simp at h
    subst h
    simp [List.count_cons]
    omega
  | b :: l, i + 1, ai, h => by
    simp at h
    have ih := count_set_add x a l i ai (by simpa using h)
    simp [List.count_cons]
    omega

/-- The swap permutes the array. -/
theorem swap_perm {α : Type} [DecidableEq α] (arr : List α) (i j : Nat) :
    (swap arr i j).Perm arr := by
  unfold swap
  split
  · rename_i ai aj hi hj
    rw [List.perm_iff_count]
    intro x
    have h1 := count_set_add x aj arr i ai hi
    by_cases hij : i = j
    · subst hij
      rw [hi] at hj
      cases hj
      have h2 := count_set_add x ai (arr.set i ai) i ai (by
        have : i < arr.length := by
          rcases List.get?_eq_some.mp hi with ⟨h, -⟩
          exact h
        simp [List.getElem?_set, this])
      omega
    · have h2 := count_set_add x ai (arr.set i aj) j aj (by
        rw [List.get?_eq_getElem?, List.getElem?_set_ne hij, ← List.get?_eq_getElem?]
        exact hj)
      omega
  · exact List.Perm.refl _



/-- The loop of `shuffle` permutes the array. -/
theorem shuffleLoop_perm {α : Type} [DecidableEq α] (rs : Nat → Draw) :
    ∀ (i k : Nat) (arr : List α), (shuffleLoop rs i k arr).1.Perm arr
  | 0, _, _ => List.Perm.refl _
  | i + 1, k, arr => by
    simp only [shuffleLoop]
    exact (shuffleLoop_perm rs i (k + 1) _).trans (swap_perm arr (i + 1) _)

/-- The array `shuffle` returns is a permutation of its argument. -/
theorem shuffle_perm {α : Type} [DecidableEq α] (rs : Nat → Draw) (k : Nat) (arr : List α) :
    (shuffle rs k arr).1.Perm arr :=
  shuffleLoop_perm rs _ k arr

/-- What the `while` loop of `buildRound` returns: the options it started from followed by
decoys, sixteen tiles in all, with pairwise distinct hex strings; every decoy is a colour
returned by `makeDecoy` and has `isCorrect = false`. -/
theorem decoyLoop_spec (rs : Nat → Draw) (target : Color) (spread : Int) :
    ∀ (fuel k : Nat) (options : List Tile) (seen : List String) (res : List Tile) (k' : Nat),
      decoyLoop rs target spread fuel k options seen = some (res, k') →
      options.length ≤ 16 → seen = options.map (fun o => o.hex) → seen.Nodup →
      ∃ decoys : List Tile, res = options ++ decoys ∧ res.length = 16 ∧
        (res.map (fun o => o.hex)).Nodup ∧
        ∀ d ∈ decoys, d.isCorrect = false ∧
          ∃ j, d = (makeDecoy rs j target spread).1.withCorrect false := by
  intro fuel
  induction fuel with
  | zero =>
    intro k options seen res k' h hlen hseen hnd
    simp only [decoyLoop] at h
    split at h
    · exact absurd h (by simp)
    · simp only [Option.some.injEq, Prod.mk.injEq] at h
      obtain ⟨rfl, -⟩ := h
      exact ⟨[], by simp, by omega, by rw [← hseen]; exact hnd, by simp⟩
  | succ fuel ih =>
    intro k options seen res k' h hlen hseen hnd
    simp only [decoyLoop] at h
    split at h
    · rename_i hlt
      split at h
      · exact ih _ options seen res k' h hlen hseen hnd
      · rename_i hnew
        obtain ⟨decoys, hres, hl16, hnd', hdec⟩ :=
          ih _ _ _ res k' h (by simp; omega) (by simp [hseen, Color.withCorrect])
            (by
              rw [List.nodup_append]
              refine ⟨hnd, List.nodup_singleton _, ?_⟩
              intro a ha hb
              simp only [List.mem_singleton] at hb
              subst hb
              exact hnew ha)
        refine ⟨(makeDecoy rs k target spread).1.withCorrect false :: decoys, ?_, hl16, hnd', ?_⟩
        · rw [hres]; simp
        · intro d hd
          rcases List.mem_cons.mp hd with rfl | hd
          · exact ⟨rfl, k, rfl⟩
          · exact hdec d hd
    · simp only [Option.some.injEq, Prod.mk.injEq] at h
      obtain ⟨rfl, -⟩ := h
      exact ⟨[], by simp, by omega, by rw [← hseen]; exact hnd, by simp⟩

/-- More fuel does not change what the loop of `buildRound` returns. -/
theorem decoyLoop_fuel_succ (rs : Nat → Draw) (target : Color) (spread : Int) :
    ∀ (fuel k : Nat) (options : List Tile) (seen : List String) (res : List Tile × Nat),
      decoyLoop rs target spread fuel k options seen = some res →
      decoyLoop rs target spread (fuel + 1) k options seen = some res := by
  intro fuel
  induction fuel with
  | zero =>
    intro k options seen res h
    simp only [decoyLoop] at h ⊢
    split at h
    · exact absurd h (by simp)
    · rename_i hge
      simp only [if_neg hge]
      exact h
  | succ fuel ih =>
    intro k options seen res h
    rw [decoyLoop] at h ⊢
    split at h
    · rename_i hlt
      simp only [if_pos hlt]
      simp only at h
      split at h
      · rename_i hmem
        simp only [if_pos hmem]
        exact ih _ _ _ _ h
      · rename_i hmem
        simp only [if_neg hmem]
        exact ih _ _ _ _ h
    · rename_i hge
      simp only [if_neg hge]
      exact h

/-- Once `buildRound` returns with some fuel, it returns the same world with any larger
fuel. -/
theorem buildRound_fuel_mono (rs : Nat → Draw) (fuel extra : Nat) (w w' : World)
    (h : buildRound rs fuel w = some w') : buildRound rs (fuel + extra) w = some w' := by
  induction extra with
  | zero => exact h
  | succ n ih =>
    simp only [buildRound] at ih ⊢
    split at ih
    · exact absurd ih (by simp)
    · rename_i options k hloop
      rw [← Nat.add_assoc, decoyLoop_fuel_succ rs _ _ _ _ _ _ _ hloop]
      exact ih

/-- What `buildRound` leaves behind when it returns. -/
theorem buildRound_spec (rs : Nat → Draw) (fuel : Nat) (w w' : World)
    (h : buildRound rs fuel w = some w') :
    ∃ decoys : List Tile,
      w'.state.target = some (pickTarget rs w.cursor).1 ∧
      w'.state.options.Perm ((pickTarget rs w.cursor).1.withCorrect true :: decoys) ∧
      decoys.length = 15 ∧
      (((pickTarget rs w.cursor).1.withCorrect true :: decoys).map (fun o => o.hex)).Nodup ∧
      (∀ d ∈ decoys, d.isCorrect = false ∧
        ∃ j, d = (makeDecoy rs j (pickTarget rs w.cursor).1
          (getSpread w.state.difficulty)).1.withCorrect false) ∧
      w'.state.locked = false ∧
      w'.state.difficulty = w.state.difficulty ∧
      w'.state.score = w.state.score ∧
      w'.state.streak = w.state.streak ∧
      w'.state.round = w.state.round ∧
      w'.els = w.els ∧ w'.timers = w.timers ∧ w'.boardGen = w.boardGen := by
  simp only [buildRound] at h
  split at h
  · exact absurd h (by simp)
  · rename_i options k hloop
    simp only [Option.some.injEq] at h
    subst h
    obtain ⟨decoys, hres, hl16, hnd, hdec⟩ :=
      decoyLoop_spec rs _ _ fuel _ _ _ options k hloop (by simp) (by simp [Color.withCorrect])
        (List.nodup_singleton _)
    subst hres
    refine ⟨decoys, rfl, ?_, ?_, ?_, hdec, rfl, rfl, rfl, rfl, rfl, rfl, rfl, rfl⟩
    · exact shuffle_perm rs k _
    · simpa using hl16
    · simpa using hnd

/-! ## Rounds and reachable worlds -/

/-- Sixteen tiles, one of them correct, pairwise distinct hex strings: what follows from the
options being a permutation of the target's tile and fifteen decoys. -/
theorem round_valid_of_perm (options decoys : List Tile) (t : Tile)
    (hp : options.Perm (t :: decoys)) (hlen : decoys.length = 15) (ht : t.isCorrect = true)
    (hnd : ((t :: decoys).map (fun o => o.hex)).Nodup)
    (hdec : ∀ d ∈ decoys, d.isCorrect = false) :
    options.length = 16 ∧ options.filter (fun o => o.isCorrect) = [t] ∧
      (options.map (fun o => o.hex)).Nodup := by
  refine ⟨?_, ?_, ?_⟩
  · rw [hp.length_eq]; simp [hlen]
  · have hf : (t :: decoys).filter (fun o => o.isCorrect) = [t] := by
      rw [List.filter_cons_of_pos (by simpa using ht)]
      congr 1
      rw [List.filter_eq_nil_iff]
      intro d hd
      simp [hdec d hd]
    have := hp.filter (fun o => o.isCorrect)
    rw [hf] at this
    exact List.perm_singleton.mp this
  · exact ((hp.map (fun o => o.hex)).nodup_iff).mpr hnd

/-- The round `buildRound` installs is valid and its one correct tile is the target. -/
theorem buildRound_valid_target (rs : Nat → Draw) (fuel : Nat) (w w' : World)
    (h : buildRound rs fuel w = some w') :
    w'.state.options.length = 16 ∧
    w'.state.options.filter (fun o => o.isCorrect) =
      [(pickTarget rs w.cursor).1.withCorrect true] ∧
    (w'.state.options.map (fun o => o.hex)).Nodup ∧
    w'.state.target = some (pickTarget rs w.cursor).1 := by
  obtain ⟨decoys, htg, hp, hlen, hnd, hdec, -⟩ := buildRound_spec rs fuel w w' h
  obtain ⟨h1, h2, h3⟩ := round_valid_of_perm _ decoys _ hp hlen rfl hnd (fun d hd => (hdec d hd).1)
  exact ⟨h1, h2, h3, htg⟩

/-- The state after `newRound` is the state `buildRound` leaves. -/
theorem newRound_spec (rs : Nat → Draw) (fuel : Nat) (w w' : World)
    (h : newRound rs fuel w = some w') :
    ∃ w1, buildRound rs fuel w = some w1 ∧ w'.state = w1.state ∧ w'.timers = w1.timers ∧
      w'.cursor = w1.cursor := by
  simp only [newRound, Option.map_eq_some'] at h
  obtain ⟨w1, hb, rfl⟩ := h
  refine ⟨w1, hb, ?_, ?_, ?_⟩
  · simp only [setMessage, updateHUD, renderBoard, renderTarget]
    split <;> rfl
  · simp only [setMessage, updateHUD, renderBoard, renderTarget]
    split <;> rfl
  · simp only [setMessage, updateHUD, renderBoard, renderTarget]
    split <;> rfl

/-- The target and the one correct option agree: the property C2 is about. -/
theorem newRound_target_correct (rs : Nat → Draw) (fuel : Nat) (w w' : World)
    (h : newRound rs fuel w = some w') :
    ∃ (t : Color) (o : Tile), w'.state.target = some t ∧
      w'.state.options.filter (fun o => o.isCorrect) = [o] ∧
      o.hex = t.hex ∧ o.r = t.r ∧ o.g = t.g ∧ o.b = t.b := by
  obtain ⟨w1, hb, hst, -, -⟩ := newRound_spec rs fuel w w' h
  obtain ⟨-, hf, -, htg⟩ := buildRound_valid_target rs fuel w w1 hb
  rw [hst]
  exact ⟨_, _, htg, hf, rfl, rfl, rfl, rfl⟩

/-- `handlePick` never touches `state.target` and `state.options`. -/
theorem handlePick_target_options (btn : Button) (opt : Tile) (w : World) :
    (handlePick btn opt w).state.target = w.state.target ∧
    (handlePick btn opt w).state.options = w.state.options := by
  unfold handlePick
  by_cases h : w.state.locked = true
  · simp [h]
  · cases hc : opt.isCorrect <;> simp [h, hc, updateHUD, setMessage]

/-- C1: whatever the difficulty held by the state and whatever the stream of draws, when
`buildRound` returns the options it has installed are 16 tiles, exactly one of them has
`isCorrect = true`, and their hex strings are pairwise distinct. -/
theorem buildRound_sixteen_distinct (rs : Nat → Draw) (fuel : Nat) (w w' : World)
    (h : buildRound rs fuel w = some w') :
    w'.state.options.length = 16 ∧
    (w'.state.options.filter (fun o => o.isCorrect)).length = 1 ∧
    (w'.state.options.map (fun o => o.hex)).Pairwise (fun a b => a ≠ b) := by
  obtain ⟨h1, h2, h3, -⟩ := buildRound_valid_target rs fuel w w' h
  exact ⟨h1, by rw [h2]; rfl, h3⟩

/-- C1 on the draws `sampleDraws`, for each of the three difficulties. -/
theorem buildRound_sixteen_distinct_witness :
    (∃ w', buildRound sampleDraws 15 (sampleStart "easy") = some w' ∧
      w'.state.options.length = 16 ∧
      (w'.state.options.filter (fun o => o.isCorrect)).length = 1 ∧
      (w'.state.options.map (fun o => o.hex)).Pairwise (fun a b => a ≠ b)) ∧
    (∃ w', buildRound sampleDraws 15 (sampleStart "medium") = some w' ∧
      w'.state.options.length = 16 ∧
      (w'.state.options.filter (fun o => o.isCorrect)).length = 1 ∧
      (w'.state.options.map (fun o => o.hex)).Pairwise (fun a b => a ≠ b)) ∧
    (∃ w', buildRound sampleDraws 15 (sampleStart "hard") = some w' ∧
      w'.state.options.length = 16 ∧
      (w'.state.options.filter (fun o => o.isCorrect)).length = 1 ∧
      (w'.state.options.map (fun o => o.hex)).Pairwise (fun a b => a ≠ b)) := by
  have he : (buildRound sampleDraws 15 (sampleStart "easy")).isSome = true := by decide!
  have hm : (buildRound sampleDraws 15 (sampleStart "medium")).isSome = true := by decide!
  have hh : (buildRound sampleDraws 15 (sampleStart "hard")).isSome = true := by decide!
  obtain ⟨we, hwe⟩ := Option.isSome_iff_exists.mp he
  obtain ⟨wm, hwm⟩ := Option.isSome_iff_exists.mp hm
  obtain ⟨wh, hwh⟩ := Option.isSome_iff_exists.mp hh
  exact ⟨⟨we, hwe, buildRound_sixteen_distinct sampleDraws 15 _ we hwe⟩,
    ⟨wm, hwm, buildRound_sixteen_distinct sampleDraws 15 _ wm hwm⟩,
    ⟨wh, hwh, buildRound_sixteen_distinct sampleDraws 15 _ wh hwh⟩⟩

/-- C2: in every world reachable from the `newRound()` that ends the script by picks, timer
callbacks, new-round clicks, resets and difficulty changes, `state.target` is set and there is
exactly one option with `isCorrect = true`, whose `hex`, `r`, `g`, `b` are those of the
target. -/
theorem target_is_correct_option (rs : Nat → Draw) (els : Els) (w : World)
    (hw : Reachable rs els w) :
    ∃ (t : Color) (o : Tile), w.state.target = some t ∧
      w.state.options.filter (fun o => o.isCorrect) = [o] ∧
      o.hex = t.hex ∧ o.r = t.r ∧ o.g = t.g ∧ o.b = t.b := by
  induction hw with
  | start fuel w h => exact newRound_target_correct rs fuel _ w h
  | next fuel e w w' _ h ih =>
    cases e with
    | pick i =>
      simp only [step] at h
      split at h
      · rename_i btn _
        split at h
        · exact absurd h (by simp)
        · simp only [Option.some.injEq] at h
          subst h
          obtain ⟨h1, h2⟩ := handlePick_target_options btn btn.opt w
          rw [h1, h2]
          exact ih
      · exact absurd h (by simp)
    | fire i =>
      simp only [step] at h
      split at h
      · rename_i t _
        cases t with
        | nextRound => exact newRound_target_correct rs fuel _ w' h
        | unlock gen =>
          simp only [runTimer, Option.some.injEq] at h
          subst h
          split <;> exact ih
      · exact absurd h (by simp)
    | newRoundCmd => exact newRound_target_correct rs fuel _ w' h
    | reset => exact newRound_target_correct rs fuel _ w' h
    | setDiff d => exact newRound_target_correct rs fuel _ w' h

/-- C2 on the world reached, on the draws `sampleDraws`, by the first `newRound()` and a click
on the first tile. -/
theorem target_is_correct_option_witness :
    Reachable sampleDraws emptyEls (handlePick (mkButton 0 sampleWrongTile) sampleWrongTile
      sampleWorld) ∧
    ∃ (t : Color) (o : Tile),
      (handlePick (mkButton 0 sampleWrongTile) sampleWrongTile sampleWorld).state.target
        = some t ∧
      (handlePick (mkButton 0 sampleWrongTile) sampleWrongTile
        sampleWorld).state.options.filter (fun o => o.isCorrect) = [o] ∧
      o.hex = t.hex ∧ o.r = t.r ∧ o.g = t.g ∧ o.b = t.b :=
  have hr : Reachable sampleDraws emptyEls (handlePick (mkButton 0 sampleWrongTile)
      sampleWrongTile sampleWorld) :=
    Reachable.next 0 (Event.pick 0) sampleWorld _
      (Reachable.start 15 sampleWorld (by decide!)) (by decide!)
  ⟨hr, target_is_correct_option sampleDraws emptyEls _ hr⟩

/-- If every decoy the stream can still produce has a hex string already in `seen`, the
loop of `buildRound` does not finish, whatever the fuel. -/
theorem decoyLoop_stuck (rs : Nat → Draw) (target : Color) (spread : Int) (k0 : Nat)
    (options : List Tile) (seen : List String) (hlen : options.length < 16)
    (hseen : ∀ j, k0 ≤ j → (makeDecoy rs j target spread).1.hex ∈ seen) :
    ∀ (fuel k : Nat), k0 ≤ k → decoyLoop rs target spread fuel k options seen = none
  | 0, k, _ => by simp [decoyLoop, hlen]
  | fuel + 1, k, hk => by
    simp only [decoyLoop, hlen, if_true, hseen k hk]
    exact decoyLoop_stuck rs target spread k0 options seen hlen hseen fuel _
      (by simp only [makeDecoy]; omega)

/-- The stream `stuckDraws` is `1/2` from draw 63 on. -/
theorem stuckDraws_eq_half (n : Nat) (h : 63 ≤ n) : stuckDraws n = halfDraws 0 := by
  simp only [stuckDraws, if_neg (Nat.not_lt.mpr h)]
  rfl

/-- On `stuckDraws`, from draw 63 on, the target is `(130,130,130)`. -/
theorem stuck_pickTarget (k : Nat) (h : 63 ≤ k) :
    (pickTarget stuckDraws k).1 = makeColor 130 130 130 ∧ (pickTarget stuckDraws k).2 = k + 3 := by
  refine ⟨?_, rfl⟩
  simp only [pickTarget, stuckDraws_eq_half k h, stuckDraws_eq_half (k + 1) (by omega),
    stuckDraws_eq_half (k + 2) (by omega)]
  decide!

/-- On `stuckDraws`, from draw 63 on, a decoy of `(130,130,130)` at spread 90 is that colour. -/
theorem stuck_makeDecoy (j : Nat) (h : 63 ≤ j) :
    (makeDecoy stuckDraws j (makeColor 130 130 130) 90).1 = makeColor 130 130 130 := by
  simp only [makeDecoy, stuckDraws_eq_half j h, stuckDraws_eq_half (j + 1) (by omega),
    stuckDraws_eq_half (j + 2) (by omega)]
  decide!

/-- C8, as amended: from every state, on every stream of draws on which the round gets built,
`resetGame` ends with score 0, streak 0, round 1, unlocked, the difficulty unchanged and a
round built from the next draws of the stream: 16 tiles with pairwise distinct hex strings,
exactly one of them correct, and that one equal to the target. -/
theorem resetGame_spec (rs : Nat → Draw) (fuel : Nat) (w w' : World)
    (h : resetGame rs fuel w = some w') :
    w'.state.score = 0 ∧ w'.state.streak = 0 ∧ w'.state.round = 1 ∧
    w'.state.locked = false ∧ w'.state.difficulty = w.state.difficulty ∧
    w'.state.options.length = 16 ∧
    (w'.state.options.map (fun o => o.hex)).Pairwise (fun a b => a ≠ b) ∧
    w'.state.target = some (pickTarget rs w.cursor).1 ∧
    w'.state.options.filter (fun o => o.isCorrect) =
      [(pickTarget rs w.cursor).1.withCorrect true] := by
  obtain ⟨w1, hb, hst, -, -⟩ := newRound_spec rs fuel _ w' h
  obtain ⟨h1, h2, h3, htg⟩ := buildRound_valid_target rs fuel _ w1 hb
  obtain ⟨-, -, -, -, -, -, hl, hd, hsc, hsk, hrd, -⟩ := buildRound_spec rs fuel _ w1 hb
  rw [hst]
  exact ⟨hsc, hsk, hrd, hl, hd, h1, h3, htg, h2⟩

/-- C8, as amended, on the draws `sampleDraws`, from the world after a correct pick. -/
theorem resetGame_spec_witness :
    ∃ w', resetGame sampleDraws 15 sampleScoredWorld = some w' ∧
      w'.state.score = 0 ∧ w'.state.streak = 0 ∧ w'.state.round = 1 ∧
      w'.state.locked = false ∧ w'.state.difficulty = sampleScoredWorld.state.difficulty ∧
      w'.state.options.length = 16 ∧
      (w'.state.options.map (fun o => o.hex)).Pairwise (fun a b => a ≠ b) ∧
      w'.state.target = some (pickTarget sampleDraws sampleScoredWorld.cursor).1 ∧
      w'.state.options.filter (fun o => o.isCorrect) =
        [(pickTarget sampleDraws sampleScoredWorld.cursor).1.withCorrect true] := by
  have hsome : (resetGame sampleDraws 15 sampleScoredWorld).isSome = true := by decide!
  obtain ⟨w', hw'⟩ := Option.isSome_iff_exists.mp hsome
  exact ⟨w', hw', resetGame_spec sampleDraws 15 _ w' hw'⟩

/-- C8 as stated fails: on the draws `stuckDraws` the world after the first `newRound()` is
reachable, and from it `resetGame` never ends, whatever the number of iterations allowed:
the target is `(130,130,130)` and every decoy drawn is that same colour. -/
theorem resetGame_never_ends :
    Reachable stuckDraws emptyEls
      ((newRound stuckDraws 15 (initialWorld emptyEls)).getD (initialWorld emptyEls)) ∧
    ¬ ∃ (fuel : Nat) (w' : World), resetGame stuckDraws fuel
      ((newRound stuckDraws 15 (initialWorld emptyEls)).getD (initialWorld emptyEls))
        = some w' := by
  refine ⟨Reachable.start 15 _ (by decide!), ?_⟩
  rintro ⟨fuel, w', h⟩
  have hcur : ((newRound stuckDraws 15 (initialWorld emptyEls)).getD
      (initialWorld emptyEls)).cursor = 63 := by decide!
  have hdiff : ((newRound stuckDraws 15 (initialWorld emptyEls)).getD
      (initialWorld emptyEls)).state.difficulty = "easy" := by decide!
  obtain ⟨w1, hb, -⟩ := newRound_spec stuckDraws fuel _ w' h
  simp only [buildRound, hcur, hdiff] at hb
  have hspread : getSpread "easy" = 90 := by decide
  obtain ⟨ht1, ht2⟩ := stuck_pickTarget 63 (le_refl _)
  rw [hspread, ht1, ht2] at hb
  rw [decoyLoop_stuck stuckDraws (makeColor 130 130 130) 90 63 _ _ (by simp)
    (fun j hj => by rw [stuck_makeDecoy j hj]; simp) fuel 66 (by norm_num)] at hb
  exact absurd hb (by simp)

/-! ## Ranges of `randInt`, `pickTarget` and the decoys -/

/-- For `lo ≤ hi`, `randInt` stays within `lo..hi`. -/
theorem randInt_range (u : Draw) (lo hi : Int) (h : lo ≤ hi) :
    lo ≤ randInt u lo hi ∧ randInt u lo hi ≤ hi := by
  unfold randInt
  have hn : (0 : ℚ) < ((hi - lo + 1 : Int) : ℚ) := by
    have : (0 : Int) < hi - lo + 1 := by omega
    exact_mod_cast this
  have h0 : 0 ≤ Int.floor (u.val * ((hi - lo + 1 : Int) : ℚ)) :=
    Int.floor_nonneg.mpr (mul_nonneg u.property.1 hn.le)
  have h1 : Int.floor (u.val * ((hi - lo + 1 : Int) : ℚ)) < hi - lo + 1 := by
    rw [Int.floor_lt]
    calc u.val * ((hi - lo + 1 : Int) : ℚ) < 1 * ((hi - lo + 1 : Int) : ℚ) :=
          mul_lt_mul_of_pos_right u.property.2 hn
      _ = ((hi - lo + 1 : Int) : ℚ) := one_mul _
  constructor <;> omega

/-- Clamping `t + off` to `0..255` moves it no further from `t` than `off` does, when `t`
is itself within `0..255`. -/
theorem clamp_near (t off s : Int) (ht0 : 0 ≤ t) (ht1 : t ≤ 255) (h1 : -s ≤ off) (h2 : off ≤ s) :
    |clamp (t + off) 0 255 - t| ≤ s := by
  unfold clamp
  rw [abs_le]
  constructor <;> omega

/-- The channels of the colour `pickTarget` returns are within `40..220`. -/
theorem pickTarget_channels (rs : Nat → Draw) (k : Nat) :
    (40 ≤ (pickTarget rs k).1.r ∧ (pickTarget rs k).1.r ≤ 220) ∧
    (40 ≤ (pickTarget rs k).1.g ∧ (pickTarget rs k).1.g ≤ 220) ∧
    (40 ≤ (pickTarget rs k).1.b ∧ (pickTarget rs k).1.b ≤ 220) :=
  ⟨randInt_range _ 40 220 (by norm_num), randInt_range _ 40 220 (by norm_num),
    randInt_range _ 40 220 (by norm_num)⟩

/-- Every channel of a decoy of a target within `0..255` is within `spread` of the target's. -/
theorem makeDecoy_near (rs : Nat → Draw) (k : Nat) (target : Color) (spread : Int)
    (hs : 0 ≤ spread)
    (hr : 0 ≤ target.r ∧ target.r ≤ 255) (hg : 0 ≤ target.g ∧ target.g ≤ 255)
    (hb : 0 ≤ target.b ∧ target.b ≤ 255) :
    |(makeDecoy rs k target spread).1.r - target.r| ≤ spread ∧
    |(makeDecoy rs k target spread).1.g - target.g| ≤ spread ∧
    |(makeDecoy rs k target spread).1.b - target.b| ≤ spread := by
  have h0 := randInt_range (rs k) (-spread) spread (by omega)
  have h1 := randInt_range (rs (k + 1)) (-spread) spread (by omega)
  have h2 := randInt_range (rs (k + 2)) (-spread) spread (by omega)
  exact ⟨clamp_near _ _ _ hr.1 hr.2 h0.1 h0.2, clamp_near _ _ _ hg.1 hg.2 h1.1 h1.2,
    clamp_near _ _ _ hb.1 hb.2 h2.1 h2.2⟩

/-- The spread of every difficulty is one of 90, 45, 22, so it is not negative. -/
theorem getSpread_nonneg (d : String) : 0 ≤ getSpread d := by
  unfold getSpread
  split
  · norm_num
  · split <;> norm_num

/-- C11: when `buildRound` returns, every channel of every decoy tile (the options with
`isCorrect = false`) is within the spread of the state's difficulty of the same channel of
the target; the spread is 90 for `easy`, 45 for `medium` and 22 for `hard`; and a decoy of
the target `(100,100,100)` at the spread of `hard` has its channels within `78..122`. -/
theorem decoys_within_spread (rs : Nat → Draw) (fuel : Nat) (w w' : World)
    (h : buildRound rs fuel w = some w') :
    (∃ t : Color, w'.state.target = some t ∧
      ∀ o ∈ w'.state.options, o.isCorrect = false →
        |o.r - t.r| ≤ getSpread w.state.difficulty ∧
        |o.g - t.g| ≤ getSpread w.state.difficulty ∧
        |o.b - t.b| ≤ getSpread w.state.difficulty) ∧
    getSpread "easy" = 90 ∧ getSpread "medium" = 45 ∧ getSpread "hard" = 22 ∧
    (∀ (rs2 : Nat → Draw) (k : Nat),
      (78 ≤ (makeDecoy rs2 k (makeColor 100 100 100) (getSpread "hard")).1.r ∧
        (makeDecoy rs2 k (makeColor 100 100 100) (getSpread "hard")).1.r ≤ 122) ∧
      (78 ≤ (makeDecoy rs2 k (makeColor 100 100 100) (getSpread "hard")).1.g ∧
        (makeDecoy rs2 k (makeColor 100 100 100) (getSpread "hard")).1.g ≤ 122) ∧
      (78 ≤ (makeDecoy rs2 k (makeColor 100 100 100) (getSpread "hard")).1.b ∧
        (makeDecoy rs2 k (makeColor 100 100 100) (getSpread "hard")).1.b ≤ 122)) := by
  refine ⟨?_, by decide, by decide, by decide, ?_⟩
  · obtain ⟨decoys, htg, hp, -, -, hdec, -⟩ := buildRound_spec rs fuel w w' h
    refine ⟨_, htg, ?_⟩
    intro o ho hfalse
    have hmem : o ∈ (pickTarget rs w.cursor).1.withCorrect true :: decoys := hp.subset ho
    rcases List.mem_cons.mp hmem with rfl | hd
    · simp [Color.withCorrect] at hfalse
    · obtain ⟨-, j, rfl⟩ := hdec o hd
      obtain ⟨hr, hg, hb⟩ := pickTarget_channels rs w.cursor
      exact makeDecoy_near rs j _ _ (getSpread_nonneg _) ⟨by omega, by omega⟩
        ⟨by omega, by omega⟩ ⟨by omega, by omega⟩
  · intro rs2 k
    have hs : getSpread "hard" = 22 := by decide
    rw [hs]
    obtain ⟨hr, hg, hb⟩ := makeDecoy_near rs2 k (makeColor 100 100 100) 22 (by norm_num)
      ⟨by simp [makeColor], by simp [makeColor]⟩ ⟨by simp [makeColor], by simp [makeColor]⟩
      ⟨by simp [makeColor], by simp [makeColor]⟩
    rw [abs_le] at hr hg hb
    have er : (makeColor 100 100 100).r = 100 := rfl
    have eg : (makeColor 100 100 100).g = 100 := rfl
    have eb : (makeColor 100 100 100).b = 100 := rfl
    rw [er] at hr
    rw [eg] at hg
    rw [eb] at hb
    refine ⟨⟨?_, ?_⟩, ⟨?_, ?_⟩, ⟨?_, ?_⟩⟩ <;> omega

/-- C11 on the draws `sampleDraws`, at the difficulty `hard`. -/
theorem decoys_within_spread_witness :
    ∃ w', buildRound sampleDraws 15 (sampleStart "hard") = some w' ∧
      (∃ t : Color, w'.state.target = some t ∧
        ∀ o ∈ w'.state.options, o.isCorrect = false →
          |o.r - t.r| ≤ getSpread (sampleStart "hard").state.difficulty ∧
          |o.g - t.g| ≤ getSpread (sampleStart "hard").state.difficulty ∧
          |o.b - t.b| ≤ getSpread (sampleStart "hard").state.difficulty) := by
  have hh : (buildRound sampleDraws 15 (sampleStart "hard")).isSome = true := by decide!
  obtain ⟨wh, hwh⟩ := Option.isSome_iff_exists.mp hh
  exact ⟨wh, hwh, (decoys_within_spread sampleDraws 15 _ wh hwh).1⟩

/-! ## Frames of `newRound` and of the commands -/

/-- What `newRound` changes and what it keeps, when it returns. -/
theorem newRound_frame (rs : Nat → Draw) (fuel : Nat) (w w' : World)
    (h : newRound rs fuel w = some w') :
    w'.timers = w.timers ∧ w'.boardGen = w.boardGen + 1 ∧ w'.state.locked = false ∧
    w'.state.score = w.state.score ∧ w'.state.streak = w.state.streak ∧
    w'.state.round = w.state.round ∧ w'.state.difficulty = w.state.difficulty ∧
    w'.state.target = some (pickTarget rs w.cursor).1 ∧
    w'.state.options.length = 16 ∧
    (w'.state.options.map (fun o => o.hex)).Pairwise (fun a b => a ≠ b) ∧
    w'.state.options.filter (fun o => o.isCorrect) =
      [(pickTarget rs w.cursor).1.withCorrect true] ∧
    (∀ o ∈ w'.state.options, o.isCorrect = false →
      ∃ j, o = (makeDecoy rs j (pickTarget rs w.cursor).1
        (getSpread w.state.difficulty)).1.withCorrect false) := by
  have hbg : w'.boardGen = w.boardGen + 1 := by
    simp only [newRound, Option.map_eq_some'] at h
    obtain ⟨w1, hb, rfl⟩ := h
    obtain ⟨-, -, -, -, -, -, -, -, -, -, -, -, -, hg⟩ := buildRound_spec rs fuel w w1 hb
    simp only [setMessage, updateHUD, renderBoard, renderTarget]
    split <;> simp [hg]
  obtain ⟨w1, hb, hst, htm, -⟩ := newRound_spec rs fuel w w' h
  obtain ⟨h1, h2, h3, htg⟩ := buildRound_valid_target rs fuel w w1 hb
  obtain ⟨decoys, -, hp, -, -, hdec, hl, hd, hsc, hsk, hrd, -, ht, -⟩ :=
    buildRound_spec rs fuel w w1 hb
  rw [hst, htm]
  refine ⟨ht, hbg, hl, hsc, hsk, hrd, hd, htg, h1, h3, h2, ?_⟩
  intro o ho hfalse
  rcases List.mem_cons.mp (hp.subset ho) with rfl | hmem
  · simp [Color.withCorrect] at hfalse
  · exact (hdec o hmem).2

/-- A draw of `1/2` gives the offset 0 at every spread. -/
theorem randInt_half (s : Int) : randInt (halfDraws 0) (-s) s = 0 := by
  unfold randInt
  have hfl : Int.floor ((halfDraws 0).val * ((s - -s + 1 : Int) : ℚ)) = s := by
    rw [Int.floor_eq_iff]
    simp only [halfDraws]
    push_cast
    constructor <;> linarith
  rw [hfl]
  omega

/-- A draw of `1/2` gives the channel 130 to the target. -/
theorem randInt_half_target : randInt (halfDraws 0) 40 220 = 130 := by decide!

/-- Three draws of `1/2` give the target `(130,130,130)`. -/
theorem pickTarget_half (rs : Nat → Draw) (k : Nat)
    (hrs : ∀ n, k ≤ n → rs n = halfDraws 0) :
    (pickTarget rs k).1 = makeColor 130 130 130 := by
  simp only [pickTarget, hrs k (le_refl _), hrs (k + 1) (by omega), hrs (k + 2) (by omega),
    randInt_half_target]

/-- Three draws of `1/2` give the decoy `(130,130,130)` of the target `(130,130,130)`, at
every spread. -/
theorem makeDecoy_half (rs : Nat → Draw) (k j : Nat) (s : Int)
    (hrs : ∀ n, k ≤ n → rs n = halfDraws 0) (hj : k ≤ j) :
    (makeDecoy rs j (makeColor 130 130 130) s).1 = makeColor 130 130 130 := by
  simp only [makeDecoy, hrs j hj, hrs (j + 1) (by omega), hrs (j + 2) (by omega),
    randInt_half]
  have hc : clamp ((makeColor 130 130 130).r + 0) 0 255 = 130 := by decide
  have hc2 : clamp ((makeColor 130 130 130).g + 0) 0 255 = 130 := by decide
  have hc3 : clamp ((makeColor 130 130 130).b + 0) 0 255 = 130 := by decide
  rw [hc, hc2, hc3]

/-- If every decoy the stream yields after the target has the hex string of the target,
`buildRound` does not return, whatever the fuel. -/
theorem buildRound_repeat_none (rs : Nat → Draw) (w : World)
    (hrep : ∀ j, w.cursor + 3 ≤ j →
      (makeDecoy rs j (pickTarget rs w.cursor).1 (getSpread w.state.difficulty)).1.hex
        = (pickTarget rs w.cursor).1.hex) :
    ∀ fuel, buildRound rs fuel w = none := by
  intro fuel
  have hk : (pickTarget rs w.cursor).2 = w.cursor + 3 := rfl
  simp only [buildRound, hk]
  rw [decoyLoop_stuck rs _ _ (w.cursor + 3) _ _ (by simp)
    (fun j hj => by rw [hrep j hj]; simp) fuel _ (le_refl _)]

/-- On a stream that is `1/2` from the cursor on, the loop of `buildRound` sees the target
again at every attempt, and `buildRound` does not return, whatever the fuel and the
difficulty. -/
theorem buildRound_half_none (rs : Nat → Draw) (w : World)
    (hrs : ∀ n, w.cursor ≤ n → rs n = halfDraws 0) :
    ∀ fuel, buildRound rs fuel w = none := by
  apply buildRound_repeat_none
  intro j hj
  rw [pickTarget_half rs w.cursor hrs, makeDecoy_half rs w.cursor j _ hrs (by omega)]

/-- Since `newRound` starts with `buildRound`, it does not return either. -/
theorem newRound_half_none (rs : Nat → Draw) (w : World)
    (hrs : ∀ n, w.cursor ≤ n → rs n = halfDraws 0) :
    ∀ fuel, newRound rs fuel w = none := by
  intro fuel
  simp [newRound, buildRound_half_none rs w hrs fuel]

/-- The world `stuckWorld` is reachable on `stuckDraws`, and its cursor is 63. -/
theorem stuckWorld_reachable :
    Reachable stuckDraws emptyEls stuckWorld ∧ stuckWorld.cursor = 63 :=
  ⟨Reachable.start 15 _ (by decide!), by decide!⟩

/-! ## Pending timers -/

/-- The timers after `handlePick`: one more when the state was unlocked. -/
theorem handlePick_timers (btn : Button) (opt : Tile) (w : World) :
    (handlePick btn opt w).timers =
      if w.state.locked then w.timers
      else w.timers ++ [if opt.isCorrect then Timer.nextRound else Timer.unlock w.boardGen] := by
  unfold handlePick
  by_cases h : w.state.locked = true
  · simp [h]
  · cases hc : opt.isCorrect <;> simp [h, hc, updateHUD, setMessage]

/-- The board generation is not changed by `handlePick`. -/
theorem handlePick_boardGen (btn : Button) (opt : Tile) (w : World) :
    (handlePick btn opt w).boardGen = w.boardGen := by
  unfold handlePick
  by_cases h : w.state.locked = true
  · simp [h]
  · cases hc : opt.isCorrect <;> simp [h, hc, updateHUD, setMessage]

/-- A new-round click, a reset or a difficulty change keeps the pending timers, renders a
new board and unlocks. -/
theorem command_frame (rs : Nat → Draw) (fuel : Nat) (cmd : Event) (w w' : World)
    (hcmd : cmd = Event.newRoundCmd ∨ cmd = Event.reset ∨ ∃ d, cmd = Event.setDiff d)
    (h : step rs fuel cmd w = some w') :
    w'.timers = w.timers ∧ w'.boardGen = w.boardGen + 1 ∧ w'.state.locked = false := by
  rcases hcmd with rfl | rfl | ⟨d, rfl⟩
  · obtain ⟨h1, h2, h3, -⟩ := newRound_frame rs fuel _ w' h
    exact ⟨h1, h2, h3⟩
  · obtain ⟨h1, h2, h3, -⟩ := newRound_frame rs fuel _ w' h
    exact ⟨h1, h2, h3⟩
  · obtain ⟨h1, h2, h3, -⟩ := newRound_frame rs fuel _ w' h
    exact ⟨h1, h2, h3⟩

/-- C13, as amended: a new-round click, a reset or a difficulty change issued while the
timer of an earlier `handlePick` is pending does not cancel that timer: it is still pending
after the command. When it is the 500 ms timer of an incorrect pick and it fires next,
nothing changes: state, page and cursor are as the command left them. When it is the 550 ms
timer of a correct pick and it fires next, it does what a new-round click does in the world
the command left, with that timer no longer pending; so on every stream of draws on which
the round gets built, the round counter goes up by one and the round the command installed
is replaced by one built from the next draws, and the state is never left unchanged. -/
theorem stale_timer_after_command (rs : Nat → Draw) (fuel fuel2 : Nat) (btn : Button)
    (opt : Tile) (cmd : Event) (w w2 : World) (hl : w.state.locked = false)
    (hcmd : cmd = Event.newRoundCmd ∨ cmd = Event.reset ∨ ∃ d, cmd = Event.setDiff d)
    (h : step rs fuel cmd (handlePick btn opt w) = some w2) :
    w2.timers.get? w.timers.length
      = some (if opt.isCorrect then Timer.nextRound else Timer.unlock w.boardGen) ∧
    (opt.isCorrect = false →
      ∃ w3, step rs fuel2 (Event.fire w.timers.length) w2 = some w3 ∧
        w3.state = w2.state ∧ w3.els = w2.els ∧ w3.boardGen = w2.boardGen ∧
        w3.cursor = w2.cursor ∧ w3.timers = w.timers) ∧
    (opt.isCorrect = true →
      step rs fuel2 (Event.fire w.timers.length) w2
        = newRoundClick rs fuel2 { w2 with timers := w.timers } ∧
      ∀ w3, step rs fuel2 (Event.fire w.timers.length) w2 = some w3 →
        w3.state.round = w2.state.round + 1 ∧
        w3.state ≠ w2.state ∧
        w3.state.target = some (pickTarget rs w2.cursor).1 ∧
        w3.state.options.filter (fun o => o.isCorrect) =
          [(pickTarget rs w2.cursor).1.withCorrect true] ∧
        w3.state.locked = false ∧ w3.timers = w.timers) := by
  obtain ⟨htm, hbg, hlk⟩ := command_frame rs fuel cmd _ w2 hcmd h
  rw [handlePick_timers, hl] at htm
  rw [handlePick_boardGen] at hbg
  simp only [Bool.false_eq_true, if_false] at htm
  have hget : w2.timers.get? w.timers.length
      = some (if opt.isCorrect then Timer.nextRound else Timer.unlock w.boardGen) := by
    rw [htm]; simp
  have herase : w2.timers.eraseIdx w.timers.length = w.timers := by
    rw [htm]; simp [List.eraseIdx_append_of_length_le]
  refine ⟨hget, ?_, ?_⟩
  · intro hc
    rw [hc] at hget
    simp only [Bool.false_eq_true, if_false] at hget
    have hne : ¬ w.boardGen = w2.boardGen := by omega
    simp only [step, hget, runTimer, hne, if_false]
    refine ⟨_, rfl, ?_, rfl, rfl, rfl, herase⟩
    obtain ⟨⟨d, sc, sk, rd, lk, tg, os⟩, els, bg, tm, cur⟩ := w2
    simp only at hlk
    subst hlk
    rfl
  · intro hc
    rw [hc] at hget
    simp only [if_true] at hget
    refine ⟨?_, ?_⟩
    · simp only [step, hget, runTimer, herase, newRoundClick]
    · intro w3 h3
      simp only [step, hget, runTimer] at h3
      obtain ⟨h1, -, h3l, -, -, hrd, -, htg, -, -, hf, -⟩ := newRound_frame rs fuel2 _ w3 h3
      refine ⟨hrd, ?_, htg, hf, h3l, by rw [h1]; exact herase⟩
      intro heq
      rw [heq] at hrd
      simp only at hrd
      omega

/-- C13, as amended, on the sample round: a decoy is picked and the difficulty is changed;
the matching tile is picked and the game is reset. -/
theorem stale_timer_after_command_witness :
    (∃ w3, step sampleDraws 0 (Event.fire sampleWorld.timers.length)
        ((step sampleDraws 15 (Event.setDiff "hard") sampleMissedWorld).getD sampleWorld)
          = some w3 ∧
      w3.state = ((step sampleDraws 15 (Event.setDiff "hard")
        sampleMissedWorld).getD sampleWorld).state ∧
      w3.els = ((step sampleDraws 15 (Event.setDiff "hard")
        sampleMissedWorld).getD sampleWorld).els ∧
      w3.boardGen = ((step sampleDraws 15 (Event.setDiff "hard")
        sampleMissedWorld).getD sampleWorld).boardGen ∧
      w3.cursor = ((step sampleDraws 15 (Event.setDiff "hard")
        sampleMissedWorld).getD sampleWorld).cursor ∧
      w3.timers = sampleWorld.timers) ∧
    (sampleStaleWorld.state.round = sampleResetWorld.state.round + 1 ∧
      sampleStaleWorld.state ≠ sampleResetWorld.state ∧
      sampleStaleWorld.state.target = some (pickTarget sampleDraws sampleResetWorld.cursor).1 ∧
      sampleStaleWorld.state.options.filter (fun o => o.isCorrect) =
        [(pickTarget sampleDraws sampleResetWorld.cursor).1.withCorrect true] ∧
      sampleStaleWorld.state.locked = false ∧ sampleStaleWorld.timers = sampleWorld.timers) :=
  ⟨(stale_timer_after_command sampleDraws 15 0 (mkButton 0 sampleWrongTile) sampleWrongTile
      (Event.setDiff "hard") sampleWorld _ (by decide!) (Or.inr (Or.inr ⟨"hard", rfl⟩))
      (by decide!)).2.1 rfl,
   ((stale_timer_after_command sampleDraws 15 15 (mkButton 9 sampleCorrectTile)
      sampleCorrectTile Event.reset sampleWorld sampleResetWorld (by decide!) (Or.inr (Or.inl rfl))
      (by decide!)).2.2 rfl).2 sampleStaleWorld (by decide!)⟩

/-- C13 as stated fails: after a correct pick on the first round and a reset, the round
counter is 1; when the 550 ms timer of the pick then fires, the counter is 2 and the target
and options installed by the reset have been replaced. -/
theorem stale_timer_replaces_round :
    Reachable sampleDraws emptyEls sampleResetWorld ∧
    sampleResetWorld.timers = [Timer.nextRound] ∧
    sampleResetWorld.state.round = 1 ∧
    step sampleDraws 15 (Event.fire 0) sampleResetWorld = some sampleStaleWorld ∧
    sampleStaleWorld.state.round = 2 ∧
    sampleStaleWorld.state.target ≠ sampleResetWorld.state.target ∧
    sampleStaleWorld.state.options ≠ sampleResetWorld.state.options := by
  refine ⟨?_, by decide!, by decide!, by decide!, by decide!, by decide!, by decide!⟩
  exact Reachable.next 15 Event.reset sampleScoredWorld _
    (Reachable.next 0 (Event.pick 9) sampleWorld _
      (Reachable.start 15 sampleWorld (by decide!)) (by decide!)) (by decide!)

/-- C14, as amended: in every world reached from the first `newRound()` by any interleaving
of picks, timer callbacks, new-round clicks, resets and difficulty changes in which no
new-round click, reset or difficulty change is issued while a timer is pending, at most one
timer is pending, and while one is pending the state is locked, so `handlePick` changes
nothing (no score, no streak, no further timer). -/
theorem pending_timer_locked (rs : Nat → Draw) (els : Els) (w : World)
    (hw : ReachableIdleCommands rs els w) :
    w.timers.length ≤ 1 ∧
    (w.timers ≠ [] → w.state.locked = true ∧ ∀ btn opt, handlePick btn opt w = w) := by
  have key : w.timers.length ≤ 1 ∧ (w.state.locked = false → w.timers = []) := by
    induction hw with
    | start fuel w h =>
      obtain ⟨h1, -⟩ := newRound_frame rs fuel _ w h
      have : w.timers = [] := by rw [h1]; rfl
      simp [this]
    | pick fuel i w w' _ h ih =>
      simp only [step] at h
      split at h
      · rename_i btn _
        split at h
        · exact absurd h (by simp)
        · simp only [Option.some.injEq] at h
          subst h
          have hlk := handlePick_locked btn btn.opt w
          rw [handlePick_timers]
          cases hl : w.state.locked
          · have := ih.2 hl
            simp [this, hlk]
          · simp [ih.1, hlk]
      · exact absurd h (by simp)
    | fire fuel i w w' _ h ih =>
      simp only [step] at h
      split at h
      · rename_i t ht
        have hi : i < w.timers.length := (List.get?_eq_some.mp ht).1
        have hnil : w.timers.eraseIdx i = [] := by
          apply List.eq_nil_of_length_eq_zero
          rw [List.length_eraseIdx]
          simp only [hi, if_true]
          omega
        cases t with
        | nextRound =>
          obtain ⟨h1, -⟩ := newRound_frame rs fuel _ w' h
          have : w'.timers = [] := by rw [h1]; exact hnil
          simp [this]
        | unlock gen =>
          simp only [runTimer, Option.some.injEq] at h
          subst h
          split <;> simp [hnil]
      · exact absurd h (by simp)
    | command fuel cmd w w' _ hcmd hidle h _ =>
      obtain ⟨h1, -, -⟩ := command_frame rs fuel cmd w w' hcmd h
      have : w'.timers = [] := by rw [h1]; exact hidle
      simp [this]
  refine ⟨key.1, ?_⟩
  intro hne
  have hlk : w.state.locked = true := by
    cases hl : w.state.locked
    · exact absurd (key.2 hl) hne
    · rfl
  exact ⟨hlk, fun btn opt => by simp [handlePick, hlk]⟩

/-- C14, as amended, on the world reached by the first `newRound()`, a difficulty change to
`hard` while no timer is pending, and a click on the first tile of the new round. -/
theorem pending_timer_locked_witness :
    ReachableIdleCommands sampleDraws emptyEls samplePendingWorld ∧
    samplePendingWorld.timers ≠ [] ∧
    samplePendingWorld.timers.length ≤ 1 ∧
    samplePendingWorld.state.locked = true ∧
    ∀ btn opt, handlePick btn opt samplePendingWorld = samplePendingWorld :=
  have hr : ReachableIdleCommands sampleDraws emptyEls samplePendingWorld :=
    ReachableIdleCommands.pick 0 0 sampleHardWorld _
      (ReachableIdleCommands.command 15 (Event.setDiff "hard") sampleWorld _
        (ReachableIdleCommands.start 15 sampleWorld (by decide!))
        (Or.inr (Or.inr ⟨"hard", rfl⟩)) (by decide!) (by decide!))
      (by decide!)
  ⟨hr, by decide!, (pending_timer_locked sampleDraws emptyEls _ hr).1,
    (pending_timer_locked sampleDraws emptyEls _ hr).2 (by decide!)⟩

/-- C14 as stated fails: after a correct pick and a new-round click the 550 ms timer is still
pending and the state is unlocked; a click on the matching tile of the new round is resolved
and takes the score from 10 to 21 while that timer is outstanding. -/
theorem pending_timer_unlocked :
    Reachable sampleDraws emptyEls sampleSkippedWorld ∧
    sampleSkippedWorld.timers = [Timer.nextRound] ∧
    sampleSkippedWorld.state.locked = false ∧
    sampleSkippedWorld.state.score = 10 ∧
    step sampleDraws 0 (Event.pick 4) sampleSkippedWorld = some sampleTwiceWorld ∧
    sampleTwiceWorld.state.score = 21 ∧
    sampleTwiceWorld.state.streak = 2 ∧
    sampleTwiceWorld.timers = [Timer.nextRound, Timer.nextRound] := by
  refine ⟨?_, by decide!, by decide!, by decide!, by decide!, by decide!, by decide!,
    by decide!⟩
  exact Reachable.next 15 Event.newRoundCmd sampleScoredWorld _
    (Reachable.next 0 (Event.pick 9) sampleWorld _
      (Reachable.start 15 sampleWorld (by decide!)) (by decide!)) (by decide!)

/-! ## The commands: new round, difficulty, and the loop of `buildRound` -/

/-- C15, as amended: from every state, locked or not, on every stream of draws on which the
round gets built, the new-round click adds one to the round counter, keeps score, streak and
difficulty, and ends unlocked with a round built from the next draws: 16 tiles, pairwise
distinct hex strings, one correct tile, equal to the target. -/
theorem newRoundClick_spec (rs : Nat → Draw) (fuel : Nat) (w w' : World)
    (h : newRoundClick rs fuel w = some w') :
    w'.state.round = w.state.round + 1 ∧ w'.state.score = w.state.score ∧
    w'.state.streak = w.state.streak ∧ w'.state.difficulty = w.state.difficulty ∧
    w'.state.locked = false ∧
    w'.state.target = some (pickTarget rs w.cursor).1 ∧
    w'.state.options.length = 16 ∧
    (w'.state.options.map (fun o => o.hex)).Pairwise (fun a b => a ≠ b) ∧
    w'.state.options.filter (fun o => o.isCorrect) =
      [(pickTarget rs w.cursor).1.withCorrect true] := by
  obtain ⟨-, -, hl, hsc, hsk, hrd, hd, htg, h16, hnd, hf, -⟩ := newRound_frame rs fuel _ w' h
  exact ⟨hrd, hsc, hsk, hd, hl, htg, h16, hnd, hf⟩

/-- C15, as amended, on the locked world left by a correct pick. -/
theorem newRoundClick_spec_witness :
    sampleScoredWorld.state.locked = true ∧
    newRoundClick sampleDraws 15 sampleScoredWorld = some sampleSkippedWorld ∧
    sampleSkippedWorld.state.round = sampleScoredWorld.state.round + 1 ∧
    sampleSkippedWorld.state.score = sampleScoredWorld.state.score ∧
    sampleSkippedWorld.state.streak = sampleScoredWorld.state.streak ∧
    sampleSkippedWorld.state.difficulty = sampleScoredWorld.state.difficulty ∧
    sampleSkippedWorld.state.locked = false ∧
    sampleSkippedWorld.state.target = some (pickTarget sampleDraws sampleScoredWorld.cursor).1 ∧
    sampleSkippedWorld.state.options.length = 16 ∧
    (sampleSkippedWorld.state.options.map (fun o => o.hex)).Pairwise (fun a b => a ≠ b) ∧
    sampleSkippedWorld.state.options.filter (fun o => o.isCorrect) =
      [(pickTarget sampleDraws sampleScoredWorld.cursor).1.withCorrect true] :=
  ⟨by decide!, by decide!,
    newRoundClick_spec sampleDraws 15 sampleScoredWorld sampleSkippedWorld (by decide!)⟩

/-- C15 as stated fails: on the draws `stuckDraws` the world after the first `newRound()` is
reachable, and from it the new-round click never ends, whatever the number of iterations
allowed. -/
theorem newRoundClick_never_ends :
    Reachable stuckDraws emptyEls stuckWorld ∧
    ¬ ∃ (fuel : Nat) (w' : World), newRoundClick stuckDraws fuel stuckWorld = some w' := by
  refine ⟨stuckWorld_reachable.1, ?_⟩
  rintro ⟨fuel, w', h⟩
  have hnone := newRound_half_none stuckDraws
    { stuckWorld with state := { stuckWorld.state with round := stuckWorld.state.round + 1 } }
    (fun n hn => stuckDraws_eq_half n (by
      have hc := stuckWorld_reachable.2
      have : stuckWorld.cursor ≤ n := hn
      omega)) fuel
  rw [newRoundClick, hnone] at h
  exact absurd h (by simp)

/-- C17, as amended: from every state and for every difficulty value `d`, on every stream of
draws on which the round gets built, `setDifficulty(d)` sets the difficulty to `d`, keeps
score, streak and round, and ends unlocked with a round built from the next draws whose
decoys are made with the spread of `d`, each channel within that spread of the target's. -/
theorem setDifficulty_spec (rs : Nat → Draw) (fuel : Nat) (d : String) (w w' : World)
    (h : setDifficulty rs fuel d w = some w') :
    w'.state.difficulty = d ∧ w'.state.score = w.state.score ∧
    w'.state.streak = w.state.streak ∧ w'.state.round = w.state.round ∧
    w'.state.locked = false ∧
    w'.state.target = some (pickTarget rs w.cursor).1 ∧
    w'.state.options.length = 16 ∧
    w'.state.options.filter (fun o => o.isCorrect) =
      [(pickTarget rs w.cursor).1.withCorrect true] ∧
    (∀ o ∈ w'.state.options, o.isCorrect = false →
      (∃ j, o = (makeDecoy rs j (pickTarget rs w.cursor).1 (getSpread d)).1.withCorrect false) ∧
      |o.r - (pickTarget rs w.cursor).1.r| ≤ getSpread d ∧
      |o.g - (pickTarget rs w.cursor).1.g| ≤ getSpread d ∧
      |o.b - (pickTarget rs w.cursor).1.b| ≤ getSpread d) := by
  obtain ⟨-, -, hl, hsc, hsk, hrd, hd, htg, h16, -, hf, hdec⟩ := newRound_frame rs fuel _ w' h
  refine ⟨hd, hsc, hsk, hrd, hl, htg, h16, hf, ?_⟩
  intro o ho hfalse
  obtain ⟨j, hj⟩ := hdec o ho hfalse
  refine ⟨⟨j, hj⟩, ?_⟩
  obtain ⟨hr, hg, hb⟩ := pickTarget_channels rs w.cursor
  have hnear := makeDecoy_near rs j (pickTarget rs w.cursor).1 (getSpread d)
    (getSpread_nonneg d) ⟨by omega, by omega⟩ ⟨by omega, by omega⟩ ⟨by omega, by omega⟩
  rw [hj]
  exact hnear

/-- C17, as amended, from the locked world left by a wrong pick, to the difficulty `hard`. -/
theorem setDifficulty_spec_witness :
    ∃ w', setDifficulty sampleDraws 15 "hard" sampleMissedWorld = some w' ∧
      w'.state.difficulty = "hard" ∧ w'.state.score = sampleMissedWorld.state.score ∧
      w'.state.streak = sampleMissedWorld.state.streak ∧
      w'.state.round = sampleMissedWorld.state.round ∧
      w'.state.locked = false ∧
      w'.state.target = some (pickTarget sampleDraws sampleMissedWorld.cursor).1 ∧
      w'.state.options.length = 16 ∧
      w'.state.options.filter (fun o => o.isCorrect) =
        [(pickTarget sampleDraws sampleMissedWorld.cursor).1.withCorrect true] ∧
      (∀ o ∈ w'.state.options, o.isCorrect = false →
        (∃ j, o = (makeDecoy sampleDraws j (pickTarget sampleDraws sampleMissedWorld.cursor).1
          (getSpread "hard")).1.withCorrect false) ∧
        |o.r - (pickTarget sampleDraws sampleMissedWorld.cursor).1.r| ≤ getSpread "hard" ∧
        |o.g - (pickTarget sampleDraws sampleMissedWorld.cursor).1.g| ≤ getSpread "hard" ∧
        |o.b - (pickTarget sampleDraws sampleMissedWorld.cursor).1.b| ≤ getSpread "hard") := by
  have hsome : (setDifficulty sampleDraws 15 "hard" sampleMissedWorld).isSome = true := by
    decide!
  obtain ⟨w', hw'⟩ := Option.isSome_iff_exists.mp hsome
  exact ⟨w', hw', setDifficulty_spec sampleDraws 15 "hard" sampleMissedWorld w' hw'⟩

/-- C17 as stated fails: on the draws `stuckDraws` the world after the first `newRound()` is
reachable, and from it `setDifficulty("hard")` never ends, whatever the number of iterations
allowed. -/
theorem setDifficulty_never_ends :
    Reachable stuckDraws emptyEls stuckWorld ∧
    ¬ ∃ (fuel : Nat) (w' : World), setDifficulty stuckDraws fuel "hard" stuckWorld = some w' := by
  refine ⟨stuckWorld_reachable.1, ?_⟩
  rintro ⟨fuel, w', h⟩
  simp only [setDifficulty] at h
  rw [newRound_half_none stuckDraws _ (fun n hn => stuckDraws_eq_half n (by
      have hc := stuckWorld_reachable.2
      have : stuckWorld.cursor ≤ n := hn
      omega)) fuel] at h
  exact absurd h (by simp)

/-- The loop of `buildRound` accepts at most one decoy per iteration: when it returns, the
options it started from and the iterations it was allowed add up to 16 at least. -/
theorem decoyLoop_fuel_ge (rs : Nat → Draw) (target : Color) (spread : Int) :
    ∀ (fuel k : Nat) (options : List Tile) (seen : List String) (res : List Tile × Nat),
      decoyLoop rs target spread fuel k options seen = some res →
      16 ≤ options.length + fuel := by
  intro fuel
  induction fuel with
  | zero =>
    intro k options seen res h
    simp only [decoyLoop] at h
    split at h
    · exact absurd h (by simp)
    · omega
  | succ fuel ih =>
    intro k options seen res h
    rw [decoyLoop] at h
    split at h
    · simp only at h
      split at h
      · have := ih _ _ _ _ h
        omega
      · have := ih _ _ _ _ h
        simp only [List.length_append, List.length_singleton] at this
        omega
    · omega

/-- C18, as amended: for every difficulty and every stream of draws, `buildRound` retries
without a bound and has no fallback. When every decoy the stream yields has the hex string of
the target, it does not return, however many iterations it is allowed; when it returns, it
has run at least 15 iterations, and it returns the same round with any larger allowance. -/
theorem buildRound_retries_unbounded (rs : Nat → Draw) (w : World) :
    ((∀ j, w.cursor + 3 ≤ j →
        (makeDecoy rs j (pickTarget rs w.cursor).1 (getSpread w.state.difficulty)).1.hex
          = (pickTarget rs w.cursor).1.hex) →
      ∀ fuel, buildRound rs fuel w = none) ∧
    (∀ fuel w', buildRound rs fuel w = some w' →
      15 ≤ fuel ∧ ∀ extra, buildRound rs (fuel + extra) w = some w') := by
  refine ⟨buildRound_repeat_none rs w, ?_⟩
  intro fuel w' h
  refine ⟨?_, fun extra => buildRound_fuel_mono rs fuel extra w w' h⟩
  simp only [buildRound] at h
  split at h
  · exact absurd h (by simp)
  · rename_i options k hloop
    have := decoyLoop_fuel_ge rs _ _ _ _ _ _ _ hloop
    simp only [List.length_singleton] at this
    omega

/-- C18, as amended, on the draws that are all `1/2` and on `sampleDraws`. -/
theorem buildRound_retries_unbounded_witness :
    (∀ fuel, buildRound halfDraws fuel (sampleStart "medium") = none) ∧
    (∃ w', buildRound sampleDraws 15 (sampleStart "medium") = some w' ∧
      (15 ≤ 15 ∧ ∀ extra, buildRound sampleDraws (15 + extra) (sampleStart "medium")
        = some w')) := by
  refine ⟨(buildRound_retries_unbounded halfDraws (sampleStart "medium")).1 ?_, ?_⟩
  · intro j hj
    rw [pickTarget_half halfDraws _ (fun _ _ => rfl),
      makeDecoy_half halfDraws 0 j _ (fun _ _ => rfl) (Nat.zero_le j)]
  · have hsome : (buildRound sampleDraws 15 (sampleStart "medium")).isSome = true := by decide!
    obtain ⟨w', hw'⟩ := Option.isSome_iff_exists.mp hsome
    exact ⟨w', hw', (buildRound_retries_unbounded sampleDraws (sampleStart "medium")).2 15 w' hw'⟩

/-- C18 as stated fails: when every draw is `1/2` the target is `(130,130,130)` and so is
every decoy, at each of the three difficulties, and `buildRound` does not return however
many iterations it is allowed. -/
theorem buildRound_never_returns :
    (¬ ∃ (fuel : Nat) (w' : World), buildRound halfDraws fuel (sampleStart "easy") = some w') ∧
    (¬ ∃ (fuel : Nat) (w' : World), buildRound halfDraws fuel (sampleStart "medium") = some w') ∧
    (¬ ∃ (fuel : Nat) (w' : World), buildRound halfDraws fuel (sampleStart "hard") = some w') ∧
    (makeDecoy halfDraws 3 (pickTarget halfDraws 0).1 (getSpread "easy")).1.hex
      = (pickTarget halfDraws 0).1.hex := by
  refine ⟨?_, ?_, ?_, by decide!⟩
  · rintro ⟨fuel, w', h⟩
    rw [buildRound_half_none halfDraws _ (fun _ _ => rfl) fuel] at h
    exact absurd h (by simp)
  · rintro ⟨fuel, w', h⟩
    rw [buildRound_half_none halfDraws _ (fun _ _ => rfl) fuel] at h
    exact absurd h (by simp)
  · rintro ⟨fuel, w', h⟩
    rw [buildRound_half_none halfDraws _ (fun _ _ => rfl) fuel] at h
    exact absurd h (by simp)

/-! ## The wrong-pick message and the rendered board -/

/-- Two wrong-pick messages are the same text only when they hold the same hex string. -/
theorem wrongMessage_injective (a b : String) (h : wrongMessage a = wrongMessage b) : a = b := by
  unfold wrongMessage at h
  have hd := congrArg String.data h
  simp only [String.data_append, List.append_assoc] at hd
  have h1 := List.append_cancel_left hd
  have h2 := List.append_cancel_right h1
  exact String.ext h2

/-- C16, as amended: in an unlocked state, after `handlePick` on an incorrect tile the hex
string in the feedback message is the one of the picked tile, `opt.hex`; it is the hex string
of the target only when the picked tile has that same hex string. -/
theorem wrong_pick_message (btn : Button) (opt : Tile) (w : World)
    (hl : w.state.locked = false) (hc : opt.isCorrect = false) :
    (handlePick btn opt w).els.messageText = wrongMessage opt.hex ∧
    (handlePick btn opt w).els.messageKind = "bad" ∧
    ∀ t : Color, (handlePick btn opt w).state.target = some t →
      ((handlePick btn opt w).els.messageText = wrongMessage t.hex ↔ opt.hex = t.hex) := by
  have hm : (handlePick btn opt w).els.messageText = wrongMessage opt.hex := by
    simp [handlePick, hl, hc, updateHUD, setMessage, wrongMessage]
  refine ⟨hm, ?_, ?_⟩
  · simp [handlePick, hl, hc, updateHUD, setMessage]
  · intro t _
    rw [hm]
    exact ⟨wrongMessage_injective _ _, fun h => by rw [h]⟩

/-- C16, as amended, on the first tile of the sample round. -/
theorem wrong_pick_message_witness :
    sampleWorld.state.locked = false ∧ sampleWrongTile.isCorrect = false ∧
    ((handlePick (mkButton 0 sampleWrongTile) sampleWrongTile sampleWorld).els.messageText
        = wrongMessage sampleWrongTile.hex ∧
     (handlePick (mkButton 0 sampleWrongTile) sampleWrongTile sampleWorld).els.messageKind
        = "bad" ∧
     ∀ t : Color,
      (handlePick (mkButton 0 sampleWrongTile) sampleWrongTile sampleWorld).state.target
        = some t →
      ((handlePick (mkButton 0 sampleWrongTile) sampleWrongTile sampleWorld).els.messageText
        = wrongMessage t.hex ↔ sampleWrongTile.hex = t.hex)) :=
  ⟨by decide!, rfl,
    wrong_pick_message (mkButton 0 sampleWrongTile) sampleWrongTile sampleWorld (by decide!) rfl⟩

/-- C16 as stated fails: on the sample round the target is `#33587D`; a click on the first
tile, a decoy, leaves the message with the hex string of that tile, `#256FB9`, not the one
of the target. -/
theorem wrong_pick_reports_picked_hex :
    step sampleDraws 0 (Event.pick 0) sampleWorld = some sampleMissedWorld ∧
    sampleMissedWorld.state.target = some (makeColor 51 88 125) ∧
    (makeColor 51 88 125).hex = "#33587D" ∧
    sampleMissedWorld.els.messageText = "❌ Wrong — that was #256FB9. Try again!" ∧
    sampleMissedWorld.els.messageText ≠ wrongMessage "#33587D" := by
  refine ⟨by decide!, by decide!, by decide!, by decide!, by decide!⟩

/-- What the buttons show apart from `data-correct` depends only on the index of the first
button and on the hex strings of the options. -/
theorem mkButtons_visible :
    ∀ (l1 l2 : List Tile) (idx : Nat),
      l1.map (fun o => o.hex) = l2.map (fun o => o.hex) →
      (mkButtons idx l1).map Button.visible = (mkButtons idx l2).map Button.visible
  | [], [], _, _ => rfl
  | [], _ :: _, _, h => by simp at h
  | _ :: _, [], _, h => by simp at h
  | a :: l1, b :: l2, idx, h => by
    simp only [List.map_cons, List.cons.injEq] at h
    simp only [mkButtons, List.map_cons, List.cons.injEq]
    exact ⟨by simp [Button.visible, mkButton, h.1], mkButtons_visible l1 l2 (idx + 1) h.2⟩

/-- The `data-correct` attributes of the buttons spell out the `isCorrect` flags. -/
theorem mkButtons_dataCorrect :
    ∀ (l : List Tile) (idx : Nat),
      (mkButtons idx l).map (fun b => b.dataCorrect)
        = l.map (fun o => if o.isCorrect then "1" else "0")
  | [], _ => rfl
  | a :: l, idx => by
    simp only [mkButtons, List.map_cons, List.cons.injEq]
    exact ⟨rfl, mkButtons_dataCorrect l (idx + 1)⟩

/-- C19, as amended: for two option lists that agree on every tile's colour and order, the
boards `renderBoard` produces agree on class, type, background, label and enabledness of
every button; the `data-correct` attribute of each button is `1` for a correct tile and `0`
otherwise, so the boards differ in it wherever the flags differ. -/
theorem renderBoard_reveals_only_dataCorrect (w1 w2 : World)
    (h : w1.state.options.map (fun o => (o.r, o.g, o.b, o.hex))
      = w2.state.options.map (fun o => (o.r, o.g, o.b, o.hex))) :
    (renderBoard w1).els.board.map Button.visible
      = (renderBoard w2).els.board.map Button.visible ∧
    (renderBoard w1).els.board.map (fun b => b.dataCorrect)
      = w1.state.options.map (fun o => if o.isCorrect then "1" else "0") ∧
    ((renderBoard w1).els.board.map (fun b => b.dataCorrect)
        = (renderBoard w2).els.board.map (fun b => b.dataCorrect) ↔
      w1.state.options.map (fun o => o.isCorrect)
        = w2.state.options.map (fun o => o.isCorrect)) := by
  have hhex : w1.state.options.map (fun o => o.hex) = w2.state.options.map (fun o => o.hex) := by
    have := congrArg (List.map (fun p : Int × Int × Int × String => p.2.2.2)) h
    simpa [List.map_map, Function.comp_def] using this
  refine ⟨mkButtons_visible _ _ 0 hhex, mkButtons_dataCorrect _ 0, ?_⟩
  simp only [renderBoard, mkButtons_dataCorrect]
  constructor
  · intro hd
    have := congrArg (List.map (fun s : String => decide (s = "1"))) hd
    simp only [List.map_map, Function.comp_def] at this
    have e : ∀ o : Tile, decide ((if o.isCorrect = true then "1" else "0") = "1")
        = o.isCorrect := by
      intro o
      cases o.isCorrect <;> decide
    simpa [e] using this
  · intro hf
    have := congrArg (List.map (fun c : Bool => if c then "1" else "0")) hf
    simpa [List.map_map, Function.comp_def] using this

/-- C19, as amended, on the sample round and the same tiles with the flags cleared. -/
theorem renderBoard_reveals_only_dataCorrect_witness :
    sampleWorld.state.options.map (fun o => (o.r, o.g, o.b, o.hex))
      = sampleMaskedWorld.state.options.map (fun o => (o.r, o.g, o.b, o.hex)) ∧
    ((renderBoard sampleWorld).els.board.map Button.visible
      = (renderBoard sampleMaskedWorld).els.board.map Button.visible ∧
    (renderBoard sampleWorld).els.board.map (fun b => b.dataCorrect)
      = sampleWorld.state.options.map (fun o => if o.isCorrect then "1" else "0") ∧
    ((renderBoard sampleWorld).els.board.map (fun b => b.dataCorrect)
        = (renderBoard sampleMaskedWorld).els.board.map (fun b => b.dataCorrect) ↔
      sampleWorld.state.options.map (fun o => o.isCorrect)
        = sampleMaskedWorld.state.options.map (fun o => o.isCorrect))) :=
  ⟨by decide!, renderBoard_reveals_only_dataCorrect sampleWorld sampleMaskedWorld (by decide!)⟩

/-- C19 as stated fails: the sample round and the same tiles with the flags cleared agree on
every colour, in the same order, and `renderBoard` gives them different boards: the tenth
button has `data-correct` `1` in one and `0` in the other. -/
theorem renderBoard_reveals_correct :
    sampleWorld.state.options.map (fun o => (o.r, o.g, o.b, o.hex))
      = sampleMaskedWorld.state.options.map (fun o => (o.r, o.g, o.b, o.hex)) ∧
    sampleWorld.state.options.map (fun o => o.isCorrect)
      ≠ sampleMaskedWorld.state.options.map (fun o => o.isCorrect) ∧
    ((renderBoard sampleWorld).els.board.get? 9).map (fun b => b.dataCorrect) = some "1" ∧
    ((renderBoard sampleMaskedWorld).els.board.get? 9).map (fun b => b.dataCorrect)
      = some "0" ∧
    (renderBoard sampleWorld).els.board.map (fun b => b.dataCorrect)
      ≠ (renderBoard sampleMaskedWorld).els.board.map (fun b => b.dataCorrect) := by
  refine ⟨by decide!, by decide!, by decide!, by decide!, by decide!⟩

/-! ## `shuffle` as a permutation -/

/-- The index `shuffle` computes from the draw `indexDraw i j` at position `i` is `j`. -/
theorem indexDraw_floor (i j : Nat) (h : j ≤ i) :
    (Int.floor ((indexDraw i j).val * (((i : Nat) : ℚ) + 1))).toNat = j := by
  have hpos : ((i : ℚ) + 1) ≠ 0 := by positivity
  simp only [indexDraw, dif_pos h]
  rw [div_mul_cancel₀ _ hpos]
  simp

/-- Swapping a position with itself changes nothing. -/
theorem swap_self {α : Type} (arr : List α) (i : Nat) : swap arr i i = arr := by
  unfold swap
  split
  · rename_i ai aj hi hj
    rw [hi] at hj
    cases hj
    rw [List.set_set]
    rw [List.get?_eq_some] at hi
    obtain ⟨hlt, hget⟩ := hi
    apply List.ext_getElem
    · simp
    · intro n h1 h2
      by_cases hn : i = n
      · subst hn
        simp [← hget]
      · simp [List.getElem_set_ne hn]
  · rfl

/-- After the swap of two positions of the array, each holds what the other held. -/
theorem swap_get {α : Type} (arr : List α) (i j : Nat) (hi : i < arr.length)
    (hj : j < arr.length) :
    (swap arr i j).get? i = arr.get? j ∧ (swap arr i j).get? j = arr.get? i := by
  unfold swap
  have e1 : arr.get? i = some arr[i] := by simp [List.getElem?_eq_getElem hi]
  have e2 : arr.get? j = some arr[j] := by simp [List.getElem?_eq_getElem hj]
  rw [e1, e2]
  simp only [List.get?_eq_getElem?]
  by_cases hij : i = j
  · subst hij
    simp [List.getElem?_set, hi]
  · constructor
    · rw [List.getElem?_set_ne (fun h => hij h.symm)]
      simp [List.getElem?_set, hi]
    · simp [List.getElem?_set, hj]

/-- When every position is swapped with itself the loop of `shuffle` returns the array. -/
theorem shuffleLoop_identity {α : Type} (rs : Nat → Draw) :
    ∀ (i k : Nat) (arr : List α),
      (∀ m, 1 ≤ m → m ≤ i → rs (k + (i - m)) = indexDraw m m) →
      (shuffleLoop rs i k arr).1 = arr
  | 0, _, _, _ => rfl
  | i + 1, k, arr, h => by
    simp only [shuffleLoop]
    have h0 := h (i + 1) (by omega) (le_refl _)
    simp only [Nat.sub_self, Nat.add_zero] at h0
    rw [h0, indexDraw_floor (i + 1) (i + 1) (le_refl _), swap_self]
    apply shuffleLoop_identity rs i (k + 1) arr
    intro m h1 h2
    have := h m h1 (by omega)
    have e : k + 1 + (i - m) = k + (i + 1 - m) := by omega
    rw [e]
    exact this

/-- When position `hi` is swapped with `lo ≤ hi` and every other position with itself, the
loop of `shuffle` returns the array with these two positions exchanged. -/
theorem shuffleLoop_place {α : Type} (rs : Nat → Draw) (hi lo : Nat) (hlo : lo ≤ hi) :
    ∀ (i k : Nat) (arr : List α), hi ≤ i →
      (∀ m, 1 ≤ m → m ≤ i →
        rs (k + (i - m)) = if m = hi then indexDraw hi lo else indexDraw m m) →
      (shuffleLoop rs i k arr).1 = swap arr hi lo
  | 0, _, arr, h0, _ => by
    have e1 : hi = 0 := by omega
    have e2 : lo = 0 := by omega
    subst e1
    subst e2
    rw [swap_self]
    rfl
  | i + 1, k, arr, hle, h => by
    simp only [shuffleLoop]
    have h0 := h (i + 1) (by omega) (le_refl _)
    simp only [Nat.sub_self, Nat.add_zero] at h0
    have hrest : ∀ m, 1 ≤ m → m ≤ i →
        rs (k + 1 + (i - m)) = if m = hi then indexDraw hi lo else indexDraw m m := by
      intro m h1 h2
      have := h m h1 (by omega)
      have e : k + 1 + (i - m) = k + (i + 1 - m) := by omega
      rw [e]
      exact this
    by_cases hhi : i + 1 = hi
    · subst hhi
      rw [h0, if_pos rfl, indexDraw_floor (i + 1) lo hlo]
      apply shuffleLoop_identity rs i (k + 1)
      intro m h1 h2
      have := hrest m h1 h2
      rw [if_neg (by omega)] at this
      exact this
    · rw [h0, if_neg hhi, indexDraw_floor (i + 1) (i + 1) (le_refl _), swap_self]
      exact shuffleLoop_place rs hi lo hlo i (k + 1) arr (by omega) hrest

/-- The draws `placeDraws` make `shuffle` exchange the positions `hi` and `lo`. -/
theorem shuffle_placeDraws {α : Type} (arr : List α) (k hi lo : Nat) (hlo : lo ≤ hi)
    (hhi : hi < arr.length) :
    (shuffle (placeDraws arr.length k hi lo) k arr).1 = swap arr hi lo := by
  unfold shuffle
  apply shuffleLoop_place _ hi lo hlo _ k arr (by omega)
  intro m h1 h2
  have e : arr.length - 1 - (k + (arr.length - 1 - m) - k) = m := by omega
  simp only [placeDraws, e]

/-- The loop of `shuffle` consumes one draw per position. -/
theorem shuffleLoop_cursor {α : Type} (rs : Nat → Draw) :
    ∀ (i k : Nat) (arr : List α), (shuffleLoop rs i k arr).2 = k + i
  | 0, _, _ => rfl
  | i + 1, k, arr => by
    simp only [shuffleLoop]
    rw [shuffleLoop_cursor rs i (k + 1)]
    omega

/-- C20: for every array and every stream of draws, `shuffle` returns an array of the same
length that is a permutation of its argument (every element occurs as often as before), and
consumes one draw per position after the first; and for every two positions `p` and `q` of
the array some stream of draws makes `shuffle` put at `p` the element that was at `q`. For
the 16 tiles of a round, whose correct tile `buildRound` puts first, every position `p` in
`0..15` holds the correct tile for some stream. -/
theorem shuffle_permutes {α : Type} (rs : Nat → Draw) (k : Nat) (arr : List α) :
    (shuffle rs k arr).1.length = arr.length ∧
    (shuffle rs k arr).1.Perm arr ∧
    (∀ a, a ∈ (shuffle rs k arr).1 ↔ a ∈ arr) ∧
    (shuffle rs k arr).2 = k + (arr.length - 1) ∧
    (∀ p q, p < arr.length → q < arr.length →
      ∃ rs2 : Nat → Draw, (shuffle rs2 k arr).1.get? p = arr.get? q) ∧
    (∀ (t : Tile) (decoys : List Tile) (p : Nat), decoys.length = 15 → p < 16 →
      ∃ rs2 : Nat → Draw, (shuffle rs2 k (t :: decoys)).1.get? p = some t) := by
  have hperm : (shuffle rs k arr).1.Perm arr := by
    classical
    exact shuffle_perm rs k arr
  have hplace : ∀ (l : List α) (p q : Nat), p < l.length → q < l.length →
      ∃ rs2 : Nat → Draw, (shuffle rs2 k l).1.get? p = l.get? q := by
    intro l p q hp hq
    rcases Nat.le_total q p with hqp | hpq
    · refine ⟨placeDraws l.length k p q, ?_⟩
      rw [shuffle_placeDraws l k p q hqp hp]
      exact (swap_get l p q hp hq).1
    · refine ⟨placeDraws l.length k q p, ?_⟩
      rw [shuffle_placeDraws l k q p hpq hq]
      exact (swap_get l q p hq hp).2
  refine ⟨hperm.length_eq, hperm, fun a => hperm.mem_iff, shuffleLoop_cursor rs _ k arr,
    hplace arr, ?_⟩
  intro t decoys p hlen hp
  refine ⟨placeDraws (t :: decoys).length k p 0, ?_⟩
  rw [shuffle_placeDraws (t :: decoys) k p 0 (Nat.zero_le p) (by simp [hlen]; omega)]
  rw [(swap_get (t :: decoys) p 0 (by simp [hlen]; omega) (by simp)).1]
  rfl

/-- C20 on the first round of the sample draws: the shuffled options are a permutation of
the target's tile followed by the decoys, and for each position `p` in `0..15` the stream
`mixDraws p` makes `buildRound` put the correct tile at `p`. -/
theorem shuffle_permutes_witness :
    (∃ rs2 : Nat → Draw,
      (shuffle rs2 48 (sampleCorrectTile :: List.replicate 15 sampleWrongTile)).1.get? 15
        = some sampleCorrectTile) ∧
    (∀ p, p < 16 →
      ((buildRound (mixDraws p) 15 (initialWorld emptyEls)).bind
        (fun w => w.state.options.get? p)).map (fun o => o.isCorrect) = some true) :=
  ⟨(shuffle_permutes sampleDraws 48
      (sampleCorrectTile :: List.replicate 15 sampleWrongTile)).2.2.2.2.2 sampleCorrectTile (List.replicate 15 sampleWrongTile) 15 (by simp) (by norm_num),
    by decide!⟩

end ColorMatch
